import Mathlib

/-!
# Verification of the date-fns calendar arithmetic engine

A shallow embedding of the repository's date arithmetic core
(`addMilliseconds`, `addSeconds`, `addMinutes`, `addHours`, `addDays`,
`addWeeks`, `addMonths`, `addQuarters`, `addYears`, `addBusinessDays`,
`add`, `compareDesc`, `formatISO9075`, `constructFrom`) together with the
ECMAScript `Date` semantics they rely on (local time modelled with a fixed
zero offset; the ±8.64e15 range clip of `TimeClip` is out of scope, its
truncation-to-integer step is modelled exactly).

JavaScript numbers are modelled as `Option ℚ` (`none` = `NaN`; infinities
are out of scope).  A `Date` object is a `kind` tag (its constructor: `0`
for the base `Date`, anything else a caller-supplied subtype) plus a time
value that is either `NaN` (`none`) or an integer count of milliseconds
since the epoch.
-/

namespace DateFns

/-- JavaScript number: a rational, or `NaN` (`none`).  Infinities out of scope. -/
abbrev JSNum := Option ℚ

/-- `ToIntegerOrInfinity` on a finite number: truncation toward zero
(`q.num.tdiv q.den` is exactly that; `jsTrunc_floor`/`jsTrunc_ceil`
below restate it as floor on non-negatives and ceil on negatives). -/
def jsTrunc (q : ℚ) : Int := q.num.tdiv q.den

/-- `NaN`-propagating addition. -/
def jsAdd : JSNum → JSNum → JSNum
  | some x, some y => some (x + y)
  | _, _ => none

/-- `NaN`-propagating multiplication (JS `NaN * x = NaN`; no infinities here). -/
def jsMul : JSNum → JSNum → JSNum
  | some x, some y => some (x * y)
  | _, _ => none

/-- `NaN`-propagating subtraction. -/
def jsSub : JSNum → JSNum → JSNum
  | some x, some y => some (x - y)
  | _, _ => none

/-- JS `<`: any comparison with `NaN` is false. -/
def jsLt : JSNum → JSNum → Bool
  | some x, some y => x < y
  | _, _ => false

/-- JS `>`: any comparison with `NaN` is false. -/
def jsGt : JSNum → JSNum → Bool
  | some x, some y => x > y
  | _, _ => false

/-- JS `>=`: any comparison with `NaN` is false. -/
def jsGe : JSNum → JSNum → Bool
  | some x, some y => x ≥ y
  | _, _ => false

/-- JS truthiness of a number: `0`, `-0` and `NaN` are falsy. -/
def truthy : JSNum → Bool
  | some x => x ≠ 0
  | none => false

/-! ## The proleptic Gregorian civil calendar

ECMAScript defines `YearFromTime`/`MonthFromTime`/`DateFromTime` and
`MakeDay` over the proleptic Gregorian calendar on day numbers counted
from 1970-01-01.  We realise that declarative specification with the
standard era-decomposition algorithms (eras of 146097 days = 400 years,
months counted from March so that the leap day falls at the end of a
year-of-era). -/

/-- Milliseconds per day. -/
def msPerDay : Int := 86400000

/-- Milliseconds per hour (constant `millisecondsInHour` of the repo's
`constants` module, not included under `src`; the standard value). -/
def millisecondsInHour : Int := 3600000

/-- Milliseconds per minute (constant `millisecondsInMinute` of the repo's
`constants` module, not included under `src`; the standard value). -/
def millisecondsInMinute : Int := 60000

/-- Day number (days since 1970-01-01) of the civil date `(y, m, d)`,
`m` being a 1-based month in `[1, 12]`.  `d` may be out of range:
the function is affine in `d`. -/
def daysFromCivil (y m d : Int) : Int :=
  let y' := if m ≤ 2 then y - 1 else y
  let era := y' / 400
  let yoe := y' - era * 400
  let mp := if 2 < m then m - 3 else m + 9
  let doy := (153 * mp + 2) / 5 + d - 1
  let doe := yoe * 365 + yoe / 4 - yoe / 100 + doy
  era * 146097 + doe - 719468

/-- Civil date `(year, month, day)` (month 1-based) of a day number. -/
def civilFromDays (z : Int) : Int × Int × Int :=
  let z' := z + 719468
  let era := z' / 146097
  let doe := z' - era * 146097
  let yoe := (doe - doe / 1460 + doe / 36524 - doe / 146096) / 365
  let y := yoe + era * 400
  let doy := doe - (365 * yoe + yoe / 4 - yoe / 100)
  let mp := (5 * doy + 2) / 153
  let d := doy - (153 * mp + 2) / 5 + 1
  let m := if mp < 10 then mp + 3 else mp - 9
  (if m ≤ 2 then y + 1 else y, m, d)

/-- Whether a (proleptic Gregorian) year is a leap year. -/
def isLeapYear (y : Int) : Bool := y % 4 = 0 ∧ (y % 100 ≠ 0 ∨ y % 400 = 0)

/-- Number of days in month `m` (1-based) of year `y`. -/
def daysInMonthOf (y m : Int) : Int :=
  if m = 2 then if isLeapYear y then 29 else 28
  else if m = 4 ∨ m = 6 ∨ m = 9 ∨ m = 11 then 30
  else 31

/-- ES `Day(t)`: day number containing time value `t`. -/
def dayNumber (t : Int) : Int := t / msPerDay

/-- ES `TimeWithinDay(t)`. -/
def timeWithinDay (t : Int) : Int := t % msPerDay

/-- ES `MakeDay(year, month, date)` on integral arguments: the month is
normalised (`ym = year + ⌊month / 12⌋`, `mn = month mod 12`), the date
offsets linearly from day 1 of that month. -/
def makeDay (year month date : Int) : Int :=
  daysFromCivil (year + month / 12) (month % 12 + 1) 1 + (date - 1)

/-- ES `MakeDate(day, time)`. -/
def makeDate (day time : Int) : Int := day * msPerDay + time

/-- ES `YearFromTime`. -/
def yearOf (t : Int) : Int := (civilFromDays (dayNumber t)).1

/-- ES `MonthFromTime` (0-based, as `Date.prototype.getMonth`). -/
def monthOf (t : Int) : Int := (civilFromDays (dayNumber t)).2.1 - 1

/-- ES `DateFromTime` (day of month, 1-based). -/
def dateOf (t : Int) : Int := (civilFromDays (dayNumber t)).2.2

/-- ES `WeekDay(t)`: 0 = Sunday … 6 = Saturday (1970-01-01 was a Thursday). -/
def weekDayOf (t : Int) : Int := (dayNumber t + 4) % 7

/-- ES `HourFromTime`. -/
def hourOf (t : Int) : Int := (t / millisecondsInHour) % 24

/-- ES `MinFromTime`. -/
def minOf (t : Int) : Int := (t / millisecondsInMinute) % 60

/-- ES `SecFromTime`. -/
def secOf (t : Int) : Int := (t / 1000) % 60

/-- ES `msFromTime`. -/
def msOf (t : Int) : Int := t % 1000

/-! ## Date objects -/

/-- A JavaScript `Date` object: a constructor tag (`kind`; `0` is the base
`Date` constructor, other values stand for caller-supplied `Date`
subclasses) and a time value (`none` = invalid date / `NaN`). -/
structure JsDate where
  kind : Nat
  time : Option Int
  deriving DecidableEq, Repr

/-- A date-like argument of the library: a `Date` object or a raw number
(the `Date | number` union of the sources). -/
inductive DateLike where
  | dt (d : JsDate)
  | num (n : JSNum)
  deriving DecidableEq, Repr

/-- `new Date(value)` for a numeric value: `TimeClip` truncates a finite
value toward zero; `NaN` gives an invalid date.  Always the base kind. -/
def newDate (v : JSNum) : JsDate := ⟨0, v.map jsTrunc⟩

/-- Modelled from the spec: `constructFrom` (file
`src/constructFrom`, shown in this excerpt only alongside
`lastDayOfQuarter`): "Given a reference DateValue and a raw millisecond
value, construct a new DateValue of the same kind as the reference"; a
numeric reference yields the base `Date`. -/
def constructFrom (date : DateLike) (value : JSNum) : JsDate :=
  match date with
  | .dt d => ⟨d.kind, value.map jsTrunc⟩
  | .num _ => ⟨0, value.map jsTrunc⟩

/-- Modelled from the spec: `toDate` (module `./toDate`, not under `src`),
the Date Normalizer of §4.1: "converts a date-like input (timestamp or
date-object) into a canonical mutable date value"; invalid inputs
normalize to InvalidDate.  It returns a fresh base-kind copy. -/
def toDate : DateLike → JsDate
  | .dt d => ⟨0, d.time⟩
  | .num n => ⟨0, n.map jsTrunc⟩

/-- Modelled from the spec: `toNumber` (module `./toNumber`, not under
`src`): the numeric time value of a date-like input. -/
def toNumber : DateLike → JSNum
  | .dt d => d.time.map (fun t => (t : ℚ))
  | .num n => n

/-- `Date.prototype.getTime` as a JS number. -/
def JsDate.getTimeJS (d : JsDate) : JSNum := d.time.map (fun t => (t : ℚ))

/-- `Date.prototype.getDate` as a JS number (`NaN` on an invalid date). -/
def JsDate.getDateJS (d : JsDate) : JSNum := d.time.map (fun t => (dateOf t : ℚ))

/-- `Date.prototype.getMonth` as a JS number. -/
def JsDate.getMonthJS (d : JsDate) : JSNum := d.time.map (fun t => (monthOf t : ℚ))

/-- `Date.prototype.getFullYear` as a JS number. -/
def JsDate.getFullYearJS (d : JsDate) : JSNum := d.time.map (fun t => (yearOf t : ℚ))

/-- `Date.prototype.getHours` as a JS number. -/
def JsDate.getHoursJS (d : JsDate) : JSNum := d.time.map (fun t => (hourOf t : ℚ))

/-- `Date.prototype.getDay` as a JS number. -/
def JsDate.getDayJS (d : JsDate) : JSNum := d.time.map (fun t => (weekDayOf t : ℚ))

/-- ES `MakeDay` on possibly-`NaN`, possibly-fractional arguments:
`NaN` anywhere gives `NaN`, finite arguments are truncated toward zero. -/
def makeDayJS (year month date : JSNum) : Option Int :=
  match year, month, date with
  | some y, some m, some d => some (makeDay (jsTrunc y) (jsTrunc m) (jsTrunc d))
  | _, _, _ => none

/-- `Date.prototype.setMonth(month, date)`: rebuild the day from the
current year and the given month/date, keeping the time within the day.
On an invalid date the result stays invalid. -/
def JsDate.setMonth (d : JsDate) (month date : JSNum) : JsDate :=
  ⟨d.kind,
    d.time.bind fun t =>
      (makeDayJS (some (yearOf t : ℚ)) month date).map fun day =>
        makeDate day (timeWithinDay t)⟩

/-- `Date.prototype.setFullYear(year, month, date)` (three arguments). -/
def JsDate.setFullYear (d : JsDate) (year month date : JSNum) : JsDate :=
  ⟨d.kind,
    d.time.bind fun t =>
      (makeDayJS year month date).map fun day => makeDate day (timeWithinDay t)⟩

/-- `Date.prototype.setDate(date)`: rebuild the day from the current year
and month and the given day of month. -/
def JsDate.setDate (d : JsDate) (date : JSNum) : JsDate :=
  ⟨d.kind,
    d.time.bind fun t =>
      (makeDayJS (some (yearOf t : ℚ)) (some (monthOf t : ℚ)) date).map fun day =>
        makeDate day (timeWithinDay t)⟩

/-- `Date.prototype.setHours(hours)` (one argument): keep the day and the
minutes/seconds/milliseconds, replace the hour (truncated toward zero). -/
def JsDate.setHours (d : JsDate) (hours : JSNum) : JsDate :=
  ⟨d.kind,
    d.time.bind fun t =>
      hours.map fun h =>
        makeDate (dayNumber t)
          (jsTrunc h * millisecondsInHour + minOf t * millisecondsInMinute +
            secOf t * 1000 + msOf t)⟩

/-- Modelled from the spec: `isWeekend` (module `./isWeekend`, not under
`src`): the day of week is Saturday or Sunday (glossary: "Business day: a
calendar day that is not Saturday or Sunday"); `NaN` compares false, so
an invalid date is not a weekend. -/
def isWeekend (d : JsDate) : Bool :=
  match d.time with
  | some t => weekDayOf t = 6 ∨ weekDayOf t = 0
  | none => false

/-- Modelled from the spec: `isSaturday` (module `./isSaturday`, not under
`src`): `date.getDay() === 6`. -/
def isSaturday (d : JsDate) : Bool :=
  match d.time with
  | some t => weekDayOf t = 6
  | none => false

/-- Modelled from the spec: `isSunday` (module `./isSunday`, not under
`src`): `date.getDay() === 0`. -/
def isSunday (d : JsDate) : Bool :=
  match d.time with
  | some t => weekDayOf t = 0
  | none => false

/-- Modelled from the spec: `isValid` (module `../isValid`, not under
`src`): a date is valid when its time value is not `NaN`. -/
def isValid (d : JsDate) : Bool := d.time.isSome

/-! ## The arithmetic engine (translated from the source) -/

/-- `addMilliseconds(dirtyDate, amount)`:
`new Date(toNumber(dirtyDate) + amount)`. -/
def addMilliseconds (dirtyDate : DateLike) (amount : JSNum) : JsDate :=
  let timestamp := toNumber dirtyDate
  newDate (jsAdd timestamp amount)

/-- `addSeconds(dirtyDate, amount)`: `addMilliseconds(dirtyDate, amount * 1000)`. -/
def addSeconds (dirtyDate : DateLike) (amount : JSNum) : JsDate :=
  addMilliseconds dirtyDate (jsMul amount (some 1000))

/-- `addMinutes(dirtyDate, amount)`:
`addMilliseconds(dirtyDate, amount * millisecondsInMinute)`. -/
def addMinutes (dirtyDate : DateLike) (amount : JSNum) : JsDate :=
  addMilliseconds dirtyDate (jsMul amount (some (millisecondsInMinute : ℚ)))

/-- `addHours(dirtyDate, amount)`:
`addMilliseconds(dirtyDate, amount * millisecondsInHour)`. -/
def addHours (dirtyDate : DateLike) (amount : JSNum) : JsDate :=
  addMilliseconds dirtyDate (jsMul amount (some (millisecondsInHour : ℚ)))

/-- `addMonths(dirtyDate, amount)`: the month-length-safe month addition.
`!amount` is reached only with a non-`NaN` amount, so it means `amount = 0`. -/
def addMonths (dirtyDate : DateLike) (amount : JSNum) : JsDate :=
  let date := toDate dirtyDate
  if amount = none then constructFrom dirtyDate none
  else if amount = some 0 then date
  else
    let dayOfMonth := date.getDateJS
    let endOfDesiredMonth :=
      (constructFrom dirtyDate date.getTimeJS).setMonth
        (jsAdd (jsAdd date.getMonthJS amount) (some 1)) (some 0)
    let daysInMonth := endOfDesiredMonth.getDateJS
    if jsGe dayOfMonth daysInMonth then endOfDesiredMonth
    else
      date.setFullYear endOfDesiredMonth.getFullYearJS endOfDesiredMonth.getMonthJS
        dayOfMonth

/-- `addQuarters(dirtyDate, amount)`: `addMonths(dirtyDate, amount * 3)`. -/
def addQuarters (dirtyDate : DateLike) (amount : JSNum) : JsDate :=
  addMonths dirtyDate (jsMul amount (some 3))

/-- `addYears(dirtyDate, amount)`: `addMonths(dirtyDate, amount * 12)`. -/
def addYears (dirtyDate : DateLike) (amount : JSNum) : JsDate :=
  addMonths dirtyDate (jsMul amount (some 12))

/-- `addDays(dirtyDate, amount)`. -/
def addDays (dirtyDate : DateLike) (amount : JSNum) : JsDate :=
  let date := toDate dirtyDate
  if amount = none then constructFrom dirtyDate none
  else if amount = some 0 then date
  else date.setDate (jsAdd date.getDateJS amount)

/-- `addWeeks(dirtyDate, amount)`: `addDays(dirtyDate, amount * 7)`. -/
def addWeeks (dirtyDate : DateLike) (amount : JSNum) : JsDate :=
  addDays dirtyDate (jsMul amount (some 7))

/-- The `while (restDays > 0)` loop of `addBusinessDays`, with a fuel
parameter.  `restDays` starts below 5 (it is `|amount % 5|`) and every
window of three consecutive calendar days contains a business day, so 16
iterations are never exhausted on the inputs the function feeds it. -/
def businessLoop : Nat → JsDate → Int → ℚ → JsDate
  | 0, date, _, _ => date
  | fuel + 1, date, sign, restDays =>
    if 0 < restDays then
      let date := date.setDate (jsAdd date.getDateJS (some (sign : ℚ)))
      let restDays := if ¬ isWeekend date then restDays - 1 else restDays
      businessLoop fuel date sign restDays
    else date

/-- `addBusinessDays(dirtyDate, amount)`.  After the `NaN` guard the
amount is a finite number `q`; `Math.trunc(q / 5)` is `jsTrunc (q / 5)`,
the JS remainder `q % 5` is `q - 5 * trunc(q / 5)`, and `amount !== 0`
is `q ≠ 0`. -/
def addBusinessDays (dirtyDate : DateLike) (amount : JSNum) : JsDate :=
  let date := toDate dirtyDate
  let startedOnWeekend := isWeekend date
  match amount with
  | none => constructFrom dirtyDate none
  | some q =>
    let hours := date.getHoursJS
    let sign : Int := if q < 0 then -1 else 1
    let fullWeeks : Int := jsTrunc (q / 5)
    let date := date.setDate (jsAdd date.getDateJS (some ((fullWeeks * 7 : Int) : ℚ)))
    let restDays : ℚ := |q - 5 * (jsTrunc (q / 5) : ℚ)|
    let date := businessLoop 16 date sign restDays
    let date :=
      if startedOnWeekend && isWeekend date && q ≠ 0 then
        let date :=
          if isSaturday date then
            date.setDate (jsAdd date.getDateJS (some (if sign < 0 then 2 else -1)))
          else date
        if isSunday date then
          date.setDate (jsAdd date.getDateJS (some (if sign < 0 then 1 else -2)))
        else date
      else date
    date.setHours hours

/-- The `Duration` record: seven optional fields, absent fields default
to 0 (an absent field and a 0 field are indistinguishable downstream). -/
structure Duration where
  years : JSNum := some 0
  months : JSNum := some 0
  weeks : JSNum := some 0
  days : JSNum := some 0
  hours : JSNum := some 0
  minutes : JSNum := some 0
  seconds : JSNum := some 0
  deriving DecidableEq, Repr

/-- `add(dirtyDate, duration)`: months/years stage, then weeks/days
stage, then the time-of-day delta; a stage guarded by `months || years`
(resp. `days || weeks`) runs only when one of the pair is truthy. -/
def add (dirtyDate : DateLike) (duration : Duration) : JsDate :=
  let date := toDate dirtyDate
  let dateWithMonths :=
    if truthy duration.months || truthy duration.years then
      addMonths (.dt date) (jsAdd duration.months (jsMul duration.years (some 12)))
    else date
  let dateWithDays :=
    if truthy duration.days || truthy duration.weeks then
      addDays (.dt dateWithMonths) (jsAdd duration.days (jsMul duration.weeks (some 7)))
    else dateWithMonths
  let minutesToAdd := jsAdd duration.minutes (jsMul duration.hours (some 60))
  let secondsToAdd := jsAdd duration.seconds (jsMul minutesToAdd (some 60))
  let msToAdd := jsMul secondsToAdd (some 1000)
  constructFrom dirtyDate (jsAdd dateWithDays.getTimeJS msToAdd)

/-- `compareDesc(dirtyDateLeft, dirtyDateRight)`: `-1`, `1`, `0`, or the
`NaN` difference itself when a time value is `NaN`. -/
def compareDesc (dirtyDateLeft dirtyDateRight : DateLike) : JSNum :=
  let dateLeft := toDate dirtyDateLeft
  let dateRight := toDate dirtyDateRight
  let diff := jsSub dateLeft.getTimeJS dateRight.getTimeJS
  if jsGt diff (some 0) then some (-1)
  else if jsLt diff (some 0) then some 1
  else diff

/-! ## Reference specifications (from the claims, not from the code) -/

/-- Weekend test on a day number (`(z + 4) % 7` is the JS day of week). -/
def isWeekendDay (z : Int) : Bool := (z + 4) % 7 = 6 ∨ (z + 4) % 7 = 0

/-- Reference: the nearest non-weekend day number strictly beyond `z` in
direction `sign` (±1).  Of three consecutive calendar days at least one
is a business day, so three candidates always suffice; the chosen one is
the first business day reached stepping one calendar day at a time. -/
def nextBusinessDay (z sign : Int) : Int :=
  if ¬ isWeekendDay (z + sign) then z + sign
  else if ¬ isWeekendDay (z + 2 * sign) then z + 2 * sign
  else z + 3 * sign

/-- Reference: advance a day number by exactly `n` non-weekend days in
direction `sign`, one business day at a time (weekend days are stepped
over without being counted). -/
def businessWalk (sign : Int) : Int → Nat → Int
  | z, 0 => z
  | z, n + 1 => businessWalk sign (nextBusinessDay z sign) n

/-! ## A store-passing rendering of `addMonths` (for the no-mutation claim)

The value-level `addMonths` above cannot express the difference between
mutating a caller's object and building fresh ones.  This version makes
the heap explicit: a store is a list of date objects, the argument is an
index into it, `toDate`/`constructFrom` append fresh cells, and the
source's `setMonth`/`setFullYear` calls update cells in place at their
index — exactly the objects the source mutates. -/

/-- `addMonths` with an explicit object store.  Returns the new store and
the index of the returned object.  Mirrors the source statement by
statement; the two in-place set-operations hit only the two cells the
function itself allocated (`dateIdx`, `eomIdx`). -/
def addMonthsStore (store : List JsDate) (ref : Nat) (amount : JSNum) :
    List JsDate × Nat :=
  let dref := store.getD ref ⟨0, none⟩
  let dateIdx := store.length
  let store1 := store ++ [toDate (.dt dref)]
  if amount = none then (store1 ++ [constructFrom (.dt dref) none], dateIdx + 1)
  else if amount = some 0 then (store1, dateIdx)
  else
    let date := toDate (.dt dref)
    let dayOfMonth := date.getDateJS
    let eomIdx := dateIdx + 1
    let store2 := store1 ++ [constructFrom (.dt dref) date.getTimeJS]
    let eom := (constructFrom (.dt dref) date.getTimeJS).setMonth
      (jsAdd (jsAdd date.getMonthJS amount) (some 1)) (some 0)
    let store3 := store2.set eomIdx eom
    let daysInMonth := eom.getDateJS
    if jsGe dayOfMonth daysInMonth then (store3, eomIdx)
    else
      let date2 := date.setFullYear eom.getFullYearJS eom.getMonthJS dayOfMonth
      (store3.set dateIdx date2, dateIdx)

/-! ## Formatting (`formatISO9075`) -/

/-- A thrown JavaScript error (only `RangeError` occurs in this area). -/
inductive JsError where
  | rangeError (msg : String)
  deriving DecidableEq, Repr

/-- The `format` option: `'extended'` (default) or `'basic'`. -/
inductive ISOFormat where
  | extended
  | basic
  deriving DecidableEq, Repr

/-- The `representation` option: `'complete'` (default), `'date'` or `'time'`. -/
inductive ISORepresentation where
  | complete
  | date
  | time
  deriving DecidableEq, Repr

/-- The options object of `formatISO9075`, with defaults applied. -/
structure FormatISO9075Options where
  format : ISOFormat := .extended
  representation : ISORepresentation := .complete
  deriving DecidableEq, Repr

/-- Modelled from the spec: `addLeadingZeros` (module
`../_lib/addLeadingZeros`, not under `src`): the decimal digits of
`|number|` left-padded with zeros to `targetLength`, prefixed with a sign
for negative numbers. -/
def addLeadingZeros (number : Int) (targetLength : Nat) : String :=
  let sign := if number < 0 then ("-") else ("")
  let output := Nat.repr number.natAbs
  let padded := String.mk (List.replicate (targetLength - output.length) ('0')) ++ output
  sign ++ padded

/-- `formatISO9075(dirtyDate, options)`: throws `RangeError` on an
invalid normalized date (`!isValid(originalDate)` is exactly
`originalDate.time = none`), otherwise formats the date and/or time
parts with the chosen delimiters. -/
def formatISO9075 (dirtyDate : DateLike) (options : FormatISO9075Options) :
    Except JsError String :=
  let originalDate := toDate dirtyDate
  match originalDate.time with
  | none => .error (.rangeError ("Invalid time value"))
  | some t =>
    let dateDelimiter := if options.format = .extended then ("-") else ("")
    let timeDelimiter := if options.format = .extended then (":") else ("")
    let datePart :=
      addLeadingZeros (yearOf t) 4 ++ dateDelimiter ++
        addLeadingZeros (monthOf t + 1) 2 ++ dateDelimiter ++
        addLeadingZeros (dateOf t) 2
    let timePart :=
      addLeadingZeros (hourOf t) 2 ++ timeDelimiter ++
        addLeadingZeros (minOf t) 2 ++ timeDelimiter ++
        addLeadingZeros (secOf t) 2
    match options.representation with
    | .time => .ok timePart
    | .date => .ok datePart
    | .complete => .ok (datePart ++ (" ") ++ timePart)

/-! ## The civil-calendar round trip

`civilFromDays` and `daysFromCivil` are mutually inverse: these lemmas
are the backbone of every field-level fact about the engine.  The year
is handled through the 400-year era decomposition; `yoe_recover` (the
year-of-era formula is correct) is settled by exhausting the 400 cases
of a year of era. -/

set_option maxHeartbeats 1600000 in
/-- Correctness of the year-of-era formula of `civilFromDays`: on the
day-of-era value of day `doy` of year-of-era `yoe` it returns `yoe`. -/
theorem yoe_recover (yoe doy doe : Int)
    (h1 : 0 ≤ yoe) (h2 : yoe ≤ 399)
    (h3 : 0 ≤ doy) (h4 : doy ≤ 365)
    (h5 : doy = 365 → (yoe + 1) % 4 = 0 ∧ ((yoe + 1) % 100 ≠ 0 ∨ (yoe + 1) % 400 = 0))
    (hdoe : doe = 365 * yoe + yoe / 4 - yoe / 100 + doy) :
    (doe - doe / 1460 + doe / 36524 - doe / 146096) / 365 = yoe := by
  interval_cases yoe <;> omega

/-- Every day-of-era value decomposes as a year-of-era plus a day-of-year
within that year's length (365 days, 366 when the year that ends the
shifted March-to-February year is a leap year). -/
theorem doe_decomp (doe : Int) (h : 0 ≤ doe) (h' : doe ≤ 146096) :
    ∃ yoe doy, 0 ≤ yoe ∧ yoe ≤ 399 ∧ 0 ≤ doy ∧ doy ≤ 365 ∧
      (doy = 365 → (yoe + 1) % 4 = 0 ∧ ((yoe + 1) % 100 ≠ 0 ∨ (yoe + 1) % 400 = 0)) ∧
      doe = 365 * yoe + yoe / 4 - yoe / 100 + doy := by
  by_cases hc : doe / 365 ≤ 399 ∧ 365 * (doe / 365) + (doe / 365) / 4 - (doe / 365) / 100 ≤ doe
  · exact ⟨doe / 365,
      doe - (365 * (doe / 365) + (doe / 365) / 4 - (doe / 365) / 100),
      by omega, by omega, by omega, by omega, by omega, by omega⟩
  · by_cases h400 : doe / 365 = 400
    · refine ⟨399, doe - 145731, by omega, by omega, by omega, by omega, ?_, by omega⟩
      intro _
      norm_num
    · have ha : doe / 365 ≤ 399 := by omega
      have hgt : doe < 365 * (doe / 365) + (doe / 365) / 4 - (doe / 365) / 100 := by
        rcases not_and_or.mp hc with h1 | h1
        · omega
        · omega
      refine ⟨doe / 365 - 1,
        doe - (365 * (doe / 365 - 1) + (doe / 365 - 1) / 4 - (doe / 365 - 1) / 100),
        by omega, by omega, by omega, by omega, ?_, by omega⟩
      intro hdoy
      have hn : doe / 365 - 1 + 1 = doe / 365 := by ring
      rw [hn]
      have hd4 : (doe / 365 % 4 = 0 ∧ (doe / 365 - 1) / 4 = doe / 365 / 4 - 1) ∨
          (doe / 365 % 4 ≠ 0 ∧ (doe / 365 - 1) / 4 = doe / 365 / 4) := by omega
      have hd100 : (doe / 365 % 100 = 0 ∧ (doe / 365 - 1) / 100 = doe / 365 / 100 - 1) ∨
          (doe / 365 % 100 ≠ 0 ∧ (doe / 365 - 1) / 100 = doe / 365 / 100) := by omega
      omega

/-- `daysFromCivil` applied to a reconstructed civil date: the month and
day of month are recovered from the day of year and the result is the
original day number; the day of month stays within the month's length. -/
theorem core_aux (era yoe doy mp m d Y : Int)
    (hy0 : 0 ≤ yoe) (hy1 : yoe ≤ 399)
    (hd0 : 0 ≤ doy) (hd1 : doy ≤ 365)
    (hleap : doy = 365 → (yoe + 1) % 4 = 0 ∧ ((yoe + 1) % 100 ≠ 0 ∨ (yoe + 1) % 400 = 0))
    (hmp : mp = (5 * doy + 2) / 153)
    (hm : m = if mp < 10 then mp + 3 else mp - 9)
    (hd : d = doy - (153 * mp + 2) / 5 + 1)
    (hY : Y = if m ≤ 2 then yoe + era * 400 + 1 else yoe + era * 400) :
    daysFromCivil Y m d = era * 146097 + (365 * yoe + yoe / 4 - yoe / 100 + doy) - 719468 ∧
    1 ≤ m ∧ m ≤ 12 ∧ 1 ≤ d ∧ d ≤ daysInMonthOf Y m := by
  simp only [daysFromCivil, daysInMonthOf, isLeapYear]
  subst hmp hm hd hY
  split_ifs <;> (try simp only [decide_eq_true_eq] at *) <;> omega

/-- The output of `civilFromDays z`, written in terms of the era, the
year of era and the day of year hidden in `z`. -/
theorem civilFromDays_char (z yoe doy : Int)
    (hy0 : 0 ≤ yoe) (hy1 : yoe ≤ 399) (hd0 : 0 ≤ doy) (hd1 : doy ≤ 365)
    (hleap : doy = 365 → (yoe + 1) % 4 = 0 ∧ ((yoe + 1) % 100 ≠ 0 ∨ (yoe + 1) % 400 = 0))
    (hsum : z + 719468 - (z + 719468) / 146097 * 146097
      = 365 * yoe + yoe / 4 - yoe / 100 + doy) :
    civilFromDays z =
      (if (if (5 * doy + 2) / 153 < 10 then (5 * doy + 2) / 153 + 3
            else (5 * doy + 2) / 153 - 9) ≤ 2
         then yoe + (z + 719468) / 146097 * 400 + 1 else yoe + (z + 719468) / 146097 * 400,
       if (5 * doy + 2) / 153 < 10 then (5 * doy + 2) / 153 + 3 else (5 * doy + 2) / 153 - 9,
       doy - (153 * ((5 * doy + 2) / 153) + 2) / 5 + 1) := by
  have hyoe := yoe_recover yoe doy _ hy0 hy1 hd0 hd1 hleap hsum
  have hD : z + 719468 - (z + 719468) / 146097 * 146097 - (365 * yoe + yoe / 4 - yoe / 100)
      = doy := by omega
  simp only [civilFromDays]
  simp only [hyoe]
  simp only [hD]

/-- Round trip one way: re-assembling the civil fields of a day number
gives the day number back, and the fields are in range (month in 1..12,
day of month in 1..length of the month). -/
theorem civil_core (z : Int) :
    daysFromCivil (civilFromDays z).1 (civilFromDays z).2.1 (civilFromDays z).2.2 = z ∧
    1 ≤ (civilFromDays z).2.1 ∧ (civilFromDays z).2.1 ≤ 12 ∧
    1 ≤ (civilFromDays z).2.2 ∧
    (civilFromDays z).2.2 ≤ daysInMonthOf (civilFromDays z).1 (civilFromDays z).2.1 := by
  obtain ⟨yoe, doy, hy0, hy1, hd0, hd1, hleap, hsum⟩ :=
    doe_decomp (z + 719468 - (z + 719468) / 146097 * 146097) (by omega) (by omega)
  have hcz := civilFromDays_char z yoe doy hy0 hy1 hd0 hd1 hleap hsum
  obtain ⟨hA, hm1, hm2, hdl, hdu⟩ := core_aux ((z + 719468) / 146097) yoe doy
    ((5 * doy + 2) / 153)
    (if (5 * doy + 2) / 153 < 10 then (5 * doy + 2) / 153 + 3 else (5 * doy + 2) / 153 - 9)
    (doy - (153 * ((5 * doy + 2) / 153) + 2) / 5 + 1)
    (if (if (5 * doy + 2) / 153 < 10 then (5 * doy + 2) / 153 + 3
          else (5 * doy + 2) / 153 - 9) ≤ 2
       then yoe + (z + 719468) / 146097 * 400 + 1 else yoe + (z + 719468) / 146097 * 400)
    hy0 hy1 hd0 hd1 hleap rfl rfl rfl rfl
  rw [hcz]
  dsimp only
  exact ⟨by rw [hA]; omega, hm1, hm2, hdl, hdu⟩

/-- Round trip the other way: the civil fields of the day number of an
in-range civil date are that date. -/
theorem dc3 (y m d : Int) (hm1 : 1 ≤ m) (hm2 : m ≤ 12) (hd1 : 1 ≤ d)
    (hd2 : d ≤ daysInMonthOf y m) :
    civilFromDays (daysFromCivil y m d) = (y, m, d) := by
  have hmain : ∃ era yoe doy,
      0 ≤ yoe ∧ yoe ≤ 399 ∧ 0 ≤ doy ∧ doy ≤ 365 ∧
      (doy = 365 → (yoe + 1) % 4 = 0 ∧ ((yoe + 1) % 100 ≠ 0 ∨ (yoe + 1) % 400 = 0)) ∧
      daysFromCivil y m d = era * 146097 + (365 * yoe + yoe / 4 - yoe / 100 + doy) - 719468 ∧
      yoe + era * 400 = (if m ≤ 2 then y - 1 else y) ∧
      doy = (153 * (if 2 < m then m - 3 else m + 9) + 2) / 5 + d - 1 := by
    refine ⟨(if m ≤ 2 then y - 1 else y) / 400,
      (if m ≤ 2 then y - 1 else y) - (if m ≤ 2 then y - 1 else y) / 400 * 400,
      (153 * (if 2 < m then m - 3 else m + 9) + 2) / 5 + d - 1,
      ?_, ?_, ?_, ?_, ?_, ?_, ?_, ?_⟩
    · omega
    · omega
    · split_ifs <;> omega
    · simp only [daysInMonthOf, isLeapYear, decide_eq_true_eq] at hd2
      split_ifs at hd2 ⊢ <;> omega
    · simp only [daysInMonthOf, isLeapYear, decide_eq_true_eq] at hd2
      intro hdoy
      split_ifs at hd2 hdoy ⊢ <;> omega
    · simp only [daysFromCivil]
      split_ifs <;> ring
    · omega
    · rfl
  obtain ⟨era, yoe, doy, hy0, hy1, hdo0, hdo1, hleap, hz, hye, hdoy⟩ := hmain
  have hera : (daysFromCivil y m d + 719468) / 146097 = era := by omega
  have hsum : daysFromCivil y m d + 719468
      - (daysFromCivil y m d + 719468) / 146097 * 146097
      = 365 * yoe + yoe / 4 - yoe / 100 + doy := by omega
  have hcz := civilFromDays_char (daysFromCivil y m d) yoe doy hy0 hy1 hdo0 hdo1 hleap hsum
  rw [hcz, hera]
  have hmp : (5 * doy + 2) / 153 = (if 2 < m then m - 3 else m + 9) := by
    simp only [daysInMonthOf, isLeapYear, decide_eq_true_eq] at hd2
    interval_cases m <;> split_ifs at hdoy hd2 ⊢ <;> omega
  rw [hmp]
  split_ifs <;> simp only [Prod.mk.injEq] <;> refine ⟨by omega, by omega, by omega⟩

/-! ## Derived facts about the ECMAScript layer -/

theorem jsTrunc_floor (q : ℚ) (h : 0 ≤ q) : jsTrunc q = ⌊q⌋ := by
  unfold jsTrunc
  rw [Rat.floor_def]
  exact Int.tdiv_eq_ediv (Rat.num_nonneg.mpr h) (by positivity)

theorem jsTrunc_neg (q : ℚ) : jsTrunc (-q) = -jsTrunc q := by
  unfold jsTrunc
  rw [Rat.num_neg_eq_neg_num, Rat.den_neg_eq_den, Int.neg_tdiv]

theorem jsTrunc_ceil (q : ℚ) (h : q < 0) : jsTrunc q = ⌈q⌉ := by
  have h1 : jsTrunc q = -jsTrunc (-q) := by rw [jsTrunc_neg, neg_neg]
  rw [h1, jsTrunc_floor (-q) (by linarith), ← Int.ceil_neg, neg_neg]

theorem jsTrunc_intCast (a : Int) : jsTrunc ((a : ℚ)) = a := by
  unfold jsTrunc
  rw [Rat.num_intCast, Rat.den_intCast]
  exact Int.tdiv_one a

theorem time_decomp (t : Int) :
    t = dayNumber t * msPerDay + timeWithinDay t ∧
    0 ≤ timeWithinDay t ∧ timeWithinDay t < msPerDay := by
  unfold dayNumber timeWithinDay msPerDay
  omega

theorem makeDate_day (d r : Int) (h0 : 0 ≤ r) (h1 : r < msPerDay) :
    dayNumber (makeDate d r) = d ∧ timeWithinDay (makeDate d r) = r := by
  unfold dayNumber timeWithinDay makeDate msPerDay at *
  omega

theorem daysFromCivil_eq_base (y m d : Int) :
    daysFromCivil y m d = daysFromCivil y m 1 + (d - 1) := by
  simp only [daysFromCivil]
  split_ifs <;> ring

theorem makeDay_fields (t k : Int) :
    makeDay (yearOf t) (monthOf t) (dateOf t + k) = dayNumber t + k := by
  obtain ⟨hround, hm1, hm2, hd1, hd2⟩ := civil_core (dayNumber t)
  unfold makeDay yearOf monthOf dateOf
  have hdiv : ((civilFromDays (dayNumber t)).2.1 - 1) / 12 = 0 := by omega
  have hmod : ((civilFromDays (dayNumber t)).2.1 - 1) % 12
      = (civilFromDays (dayNumber t)).2.1 - 1 := by omega
  rw [hdiv, hmod]
  have hone : (civilFromDays (dayNumber t)).2.1 - 1 + 1 = (civilFromDays (dayNumber t)).2.1 := by
    ring
  rw [hone, add_zero]
  have hbase := daysFromCivil_eq_base (civilFromDays (dayNumber t)).1
    (civilFromDays (dayNumber t)).2.1 (civilFromDays (dayNumber t)).2.2
  omega

theorem setDate_int (kk : Nat) (t j : Int) :
    JsDate.setDate ⟨kk, some t⟩ (jsAdd (JsDate.getDateJS ⟨kk, some t⟩) (some ((j : Int) : ℚ)))
      = ⟨kk, some (t + j * msPerDay)⟩ := by
  dsimp only [JsDate.setDate, JsDate.getDateJS, jsAdd, makeDayJS, Option.map, Option.bind]
  have hcast : (dateOf t : ℚ) + (j : ℚ) = ((dateOf t + j : Int) : ℚ) := by push_cast; ring
  rw [hcast, jsTrunc_intCast, jsTrunc_intCast, jsTrunc_intCast, makeDay_fields]
  have := time_decomp t
  simp only [JsDate.mk.injEq, Option.some.injEq, makeDate, true_and]
  unfold msPerDay at *
  omega

theorem setHours_self (kk : Nat) (t : Int) :
    JsDate.setHours ⟨kk, some t⟩ (some ((hourOf t : Int) : ℚ)) = ⟨kk, some t⟩ := by
  dsimp only [JsDate.setHours, Option.map, Option.bind]
  rw [jsTrunc_intCast]
  simp only [JsDate.mk.injEq, Option.some.injEq, makeDate, true_and]
  unfold hourOf minOf secOf msOf dayNumber msPerDay millisecondsInHour millisecondsInMinute
  omega

/-- Claim C5: `addMonths(d, 0)` and `addDays(d, 0)` both short-circuit and
return a date with exactly the input's time value, for every valid date. -/
theorem claim_C5 (k : Nat) (t : Int) :
    (addMonths (.dt ⟨k, some t⟩) (some 0)).time = some t ∧
    (addDays (.dt ⟨k, some t⟩) (some 0)).time = some t := by
  constructor <;> rfl

/-- Claim C8 (code bug): the documented contract says a negative fractional
amount is rounded with `Math.ceil`, which at time value 1000 and amount
-0.5 would give 1000 + ceil(-0.5) = 1000; the code instead truncates the
sum 999.5 toward zero and returns 999 — an effective floor of the negative
amount at a positive timestamp. -/
theorem claim_C8 :
    (addMilliseconds (.dt ⟨0, some 1000⟩) (some (-1/2))).time = some 999 := by
  have h : jsTrunc (((1000 : Int) : ℚ) + (-1/2)) = 999 := by
    rw [jsTrunc_floor _ (by norm_num)]
    norm_num
  show some (jsTrunc (((1000 : Int) : ℚ) + (-1/2))) = some 999
  rw [h]

/-- Counterexample to claim C7 as stated: `addMilliseconds` on a date of a
`Date` subclass (kind 5) returns a base-kind date (kind 0), not the
caller's subtype. -/
theorem claim_C7_counterexample :
    (addMilliseconds (.dt ⟨5, some 0⟩) (some 0)).kind = 0 ∧ (5 : Nat) ≠ 0 := by
  exact ⟨rfl, by decide⟩

/-- Claim C7 (corrected): `constructFrom` does return a date of its
reference date's kind, but `addMilliseconds` and its delegates
`addSeconds`/`addMinutes`/`addHours` construct their result with the base
`Date` constructor and always return kind 0, whatever the input's kind. -/
theorem claim_C7 (d : JsDate) (v a : JSNum) (dl : DateLike) :
    (constructFrom (.dt d) v).kind = d.kind ∧
    (addMilliseconds dl a).kind = 0 ∧ (addSeconds dl a).kind = 0 ∧
    (addMinutes dl a).kind = 0 ∧ (addHours dl a).kind = 0 := by
  exact ⟨rfl, rfl, rfl, rfl, rfl⟩

theorem formatISO9075_invalid (d : DateLike) (opts : FormatISO9075Options)
    (h : (toDate d).time = none) :
    formatISO9075 d opts = Except.error (JsError.rangeError ("Invalid time value")) := by
  unfold formatISO9075
  dsimp only
  rw [h]

theorem formatISO9075_valid (d : DateLike) (opts : FormatISO9075Options) (t : Int)
    (h : (toDate d).time = some t) :
    ∃ s, formatISO9075 d opts = Except.ok s := by
  unfold formatISO9075
  dsimp only
  rw [h]
  rcases opts with ⟨fmt, rep⟩
  rcases rep <;> exact ⟨_, rfl⟩

/-- Claim C9: `formatISO9075` returns the RangeError "Invalid time value"
exactly when the normalized input date is invalid, and a formatted string
otherwise, for every format/representation option. -/
theorem claim_C9 (d : DateLike) (opts : FormatISO9075Options) :
    ((toDate d).time = none →
      formatISO9075 d opts = Except.error (JsError.rangeError ("Invalid time value"))) ∧
    (∀ t, (toDate d).time = some t → ∃ s, formatISO9075 d opts = Except.ok s) ∧
    ((∃ e, formatISO9075 d opts = Except.error e) ↔ (toDate d).time = none) := by
  refine ⟨formatISO9075_invalid d opts, formatISO9075_valid d opts, ?_, ?_⟩
  · rintro ⟨e, he⟩
    rcases h : (toDate d).time with _ | t
    · rfl
    · obtain ⟨s, hs⟩ := formatISO9075_valid d opts t h
      rw [hs] at he
      cases he
  · intro h
    exact ⟨_, formatISO9075_invalid d opts h⟩

/-- Witness for `claim_C9`: the invalid date errors, the epoch formats. -/
theorem claim_C9_witness :
    formatISO9075 (.dt ⟨0, none⟩) {} = Except.error (JsError.rangeError ("Invalid time value"))
      ∧ ∃ s, formatISO9075 (.dt ⟨0, some 0⟩) {} = Except.ok s := by
  exact ⟨(claim_C9 (.dt ⟨0, none⟩) {}).1 rfl, (claim_C9 (.dt ⟨0, some 0⟩) {}).2.1 0 rfl⟩

/-- Claim C10: `compareDesc` returns -1/1/0 by the trichotomy of the two
timestamps (descending order), is antisymmetric on valid dates, and
returns `NaN` when either input is invalid. -/
theorem claim_C10 (k1 k2 : Nat) (t1 t2 : Int) :
    compareDesc (.dt ⟨k1, some t1⟩) (.dt ⟨k2, some t2⟩)
        = some (if t2 < t1 then -1 else if t1 < t2 then 1 else 0) ∧
    compareDesc (.dt ⟨k1, some t1⟩) (.dt ⟨k2, some t2⟩)
        = (compareDesc (.dt ⟨k2, some t2⟩) (.dt ⟨k1, some t1⟩)).map (fun x => -x) ∧
    compareDesc (.dt ⟨k1, none⟩) (.dt ⟨k2, some t2⟩) = none ∧
    compareDesc (.dt ⟨k1, some t1⟩) (.dt ⟨k2, none⟩) = none ∧
    compareDesc (.dt ⟨k1, none⟩) (.dt ⟨k2, none⟩) = none := by
  refine ⟨?_, ?_, rfl, rfl, rfl⟩ <;>
    · dsimp only [compareDesc, toDate, JsDate.getTimeJS, Option.map, jsSub, jsGt, jsLt]
      rcases lt_trichotomy t1 t2 with h | h | h <;>
        · split_ifs <;>
            first
              | (simp_all; done)
              | (exfalso; simp_all; push_cast at *; omega)
              | (simp_all; push_cast at *; omega)

theorem jsAdd_none_right (x : JSNum) : jsAdd x none = none := by
  cases x <;> rfl

theorem jsMul_none_right (x : JSNum) : jsMul x none = none := by
  cases x <;> rfl

theorem addMonths_invalid (d : JsDate) (h : d.time = none) (a : JSNum) :
    (addMonths (.dt d) a).time = none := by
  dsimp only [addMonths, toDate]
  rw [h]
  split_ifs <;> rfl

theorem addDays_invalid (d : JsDate) (h : d.time = none) (a : JSNum) :
    (addDays (.dt d) a).time = none := by
  dsimp only [addDays, toDate]
  rw [h]
  split_ifs <;> rfl

theorem setDate_none (k : Nat) (x : JSNum) :
    JsDate.setDate ⟨k, none⟩ x = ⟨k, none⟩ := rfl

theorem businessLoop_none (fuel : Nat) (k : Nat) (s : Int) (r : ℚ) :
    businessLoop fuel ⟨k, none⟩ s r = ⟨k, none⟩ := by
  induction fuel generalizing r with
  | zero => rfl
  | succ n ih =>
    dsimp only [businessLoop]
    rw [setDate_none]
    simp only [isWeekend, Bool.false_eq_true, not_false_eq_true, if_true]
    split_ifs with h
    · exact ih (r - 1)
    · rfl

theorem addBusinessDays_invalid (d : JsDate) (h : d.time = none) (a : JSNum) :
    (addBusinessDays (.dt d) a).time = none := by
  rcases a with _ | q
  · rfl
  · dsimp only [addBusinessDays, toDate]
    rw [h, setDate_none, businessLoop_none]
    rfl

theorem getTimeJS_none (d : JsDate) (h : d.time = none) : d.getTimeJS = none := by
  dsimp only [JsDate.getTimeJS]
  rw [h]
  rfl

theorem add_invalid (k : Nat) (du : Duration) : (add (.dt ⟨k, none⟩) du).time = none := by
  dsimp only [add, toDate]
  rw [getTimeJS_none]
  · rfl
  · split_ifs with h1 h2 h2
    · exact addDays_invalid _ (addMonths_invalid _ rfl _) _
    · exact addDays_invalid _ rfl _
    · exact addMonths_invalid _ rfl _
    · rfl

theorem constructFrom_add_none (dl : DateLike) (d : JsDate) (h : d.time = none) (ms : JSNum) :
    (constructFrom dl (jsAdd d.getTimeJS ms)).time = none := by
  rw [getTimeJS_none d h]
  cases dl <;> rfl

theorem add_ms_none (k : Nat) (τ : Option Int) (du : Duration)
    (h : jsMul (jsAdd du.seconds (jsMul (jsAdd du.minutes (jsMul du.hours (some 60)))
      (some 60))) (some 1000) = none) :
    (add (.dt ⟨k, τ⟩) du).time = none := by
  dsimp only [add, toDate]
  rw [h, jsAdd_none_right]
  rfl

theorem add_stage1_none (k : Nat) (τ : Option Int) (du : Duration)
    (hg : (truthy du.months || truthy du.years) = true)
    (ha : jsAdd du.months (jsMul du.years (some 12)) = none) :
    (add (.dt ⟨k, τ⟩) du).time = none := by
  dsimp only [add, toDate]
  rw [if_pos hg, ha]
  by_cases h2 : (truthy du.days || truthy du.weeks) = true
  · rw [if_pos h2]
    exact constructFrom_add_none _ _ (addDays_invalid _ rfl _) _
  · rw [if_neg h2]
    exact constructFrom_add_none _ _ rfl _

theorem add_stage2_none (k : Nat) (τ : Option Int) (du : Duration)
    (hg : (truthy du.days || truthy du.weeks) = true)
    (ha : jsAdd du.days (jsMul du.weeks (some 7)) = none) :
    (add (.dt ⟨k, τ⟩) du).time = none := by
  dsimp only [add, toDate]
  by_cases h1 : (truthy du.months || truthy du.years) = true
  · rw [if_pos h1, if_pos hg, ha]
    exact constructFrom_add_none _ _ rfl _
  · rw [if_neg h1, if_pos hg, ha]
    exact constructFrom_add_none _ _ rfl _

/-- Claim C3 (corrected): every single-unit arithmetic function returns an
invalid date on a `NaN` amount and on an invalid input date, and `add`
propagates an invalid input date; a `NaN` time-of-day field (`hours`,
`minutes` or `seconds`) always propagates, and a `NaN` `months`, `years`,
`days` or `weeks` field yields an invalid date whenever its stage executes,
that is, whenever the other field of its group is truthy; the original
claim's universal `NaN`-poisoning fails for `add` on a skipped stage (see
`claim_C3_counterexample`). -/
theorem claim_C3 (k : Nat) (τ : Option Int) (a : JSNum) (du : Duration) :
    (addMilliseconds (.dt ⟨k, τ⟩) none).time = none ∧
    (addSeconds (.dt ⟨k, τ⟩) none).time = none ∧
    (addMinutes (.dt ⟨k, τ⟩) none).time = none ∧
    (addHours (.dt ⟨k, τ⟩) none).time = none ∧
    (addDays (.dt ⟨k, τ⟩) none).time = none ∧
    (addWeeks (.dt ⟨k, τ⟩) none).time = none ∧
    (addMonths (.dt ⟨k, τ⟩) none).time = none ∧
    (addQuarters (.dt ⟨k, τ⟩) none).time = none ∧
    (addYears (.dt ⟨k, τ⟩) none).time = none ∧
    (addBusinessDays (.dt ⟨k, τ⟩) none).time = none ∧
    (addMilliseconds (.dt ⟨k, none⟩) a).time = none ∧
    (addSeconds (.dt ⟨k, none⟩) a).time = none ∧
    (addMinutes (.dt ⟨k, none⟩) a).time = none ∧
    (addHours (.dt ⟨k, none⟩) a).time = none ∧
    (addDays (.dt ⟨k, none⟩) a).time = none ∧
    (addWeeks (.dt ⟨k, none⟩) a).time = none ∧
    (addMonths (.dt ⟨k, none⟩) a).time = none ∧
    (addQuarters (.dt ⟨k, none⟩) a).time = none ∧
    (addYears (.dt ⟨k, none⟩) a).time = none ∧
    (addBusinessDays (.dt ⟨k, none⟩) a).time = none ∧
    (add (.dt ⟨k, none⟩) du).time = none ∧
    (add (.dt ⟨k, τ⟩) { du with seconds := none }).time = none ∧
    (add (.dt ⟨k, τ⟩) { months := none, years := some 1 }).time = none ∧
    (add (.dt ⟨k, τ⟩) { du with hours := none }).time = none ∧
    (add (.dt ⟨k, τ⟩) { du with minutes := none }).time = none ∧
    (truthy du.years = true → (add (.dt ⟨k, τ⟩) { du with months := none }).time = none) ∧
    (truthy du.months = true → (add (.dt ⟨k, τ⟩) { du with years := none }).time = none) ∧
    (truthy du.weeks = true → (add (.dt ⟨k, τ⟩) { du with days := none }).time = none) ∧
    (truthy du.days = true → (add (.dt ⟨k, τ⟩) { du with weeks := none }).time = none) := by
  have hms : (addMilliseconds (.dt ⟨k, τ⟩) none).time = none := by
    dsimp only [addMilliseconds]
    rw [jsAdd_none_right]
    rfl
  refine ⟨hms, hms, hms, hms, rfl, rfl, rfl, rfl, rfl, rfl,
    rfl, rfl, rfl, rfl, addDays_invalid _ rfl _, addDays_invalid _ rfl _,
    addMonths_invalid _ rfl _, addMonths_invalid _ rfl _, addMonths_invalid _ rfl _,
    addBusinessDays_invalid _ rfl _, add_invalid k du, ?_, ?_, ?_, ?_, ?_, ?_, ?_, ?_⟩
  · dsimp only [add, toDate]
    have h1 : jsMul (jsAdd none (jsMul (jsAdd du.minutes (jsMul du.hours (some 60)))
        (some 60))) (some 1000) = (none : JSNum) := rfl
    rw [h1, jsAdd_none_right]
    rfl
  · dsimp only [add, toDate]
    rw [show (truthy (none : JSNum) || truthy (some (1 : ℚ))) = true from by
      simp [truthy]]
    rw [show (truthy (some (0 : ℚ)) || truthy (some (0 : ℚ))) = false from by
      simp [truthy]]
    simp only [if_true, if_false, Bool.false_eq_true]
    rfl
  · exact add_ms_none k τ _ (by
      show jsMul (jsAdd du.seconds (jsMul (jsAdd du.minutes (jsMul (none : JSNum) (some 60)))
        (some 60))) (some 1000) = none
      rw [show jsMul (none : JSNum) (some 60) = none from rfl, jsAdd_none_right,
        show jsMul (none : JSNum) (some 60) = none from rfl, jsAdd_none_right]
      rfl)
  · exact add_ms_none k τ _ (by
      show jsMul (jsAdd du.seconds (jsMul (jsAdd (none : JSNum) (jsMul du.hours (some 60)))
        (some 60))) (some 1000) = none
      rw [show jsAdd (none : JSNum) (jsMul du.hours (some 60)) = none from rfl,
        show jsMul (none : JSNum) (some 60) = none from rfl, jsAdd_none_right]
      rfl)
  · intro hy
    exact add_stage1_none k τ _ (by
        show (truthy (none : JSNum) || truthy du.years) = true
        rw [show truthy (none : JSNum) = false from rfl, Bool.false_or]
        exact hy)
      (by
        show jsAdd (none : JSNum) (jsMul du.years (some 12)) = none
        rfl)
  · intro hm
    exact add_stage1_none k τ _ (by
        show (truthy du.months || truthy (none : JSNum)) = true
        rw [show truthy (none : JSNum) = false from rfl, Bool.or_false]
        exact hm)
      (by
        show jsAdd du.months (jsMul (none : JSNum) (some 12)) = none
        rw [show jsMul (none : JSNum) (some 12) = none from rfl, jsAdd_none_right])
  · intro hw
    exact add_stage2_none k τ _ (by
        show (truthy (none : JSNum) || truthy du.weeks) = true
        rw [show truthy (none : JSNum) = false from rfl, Bool.false_or]
        exact hw)
      (by
        show jsAdd (none : JSNum) (jsMul du.weeks (some 7)) = none
        rfl)
  · intro hd
    exact add_stage2_none k τ _ (by
        show (truthy du.days || truthy (none : JSNum)) = true
        rw [show truthy (none : JSNum) = false from rfl, Bool.or_false]
        exact hd)
      (by
        show jsAdd du.days (jsMul (none : JSNum) (some 7)) = none
        rw [show jsMul (none : JSNum) (some 7) = none from rfl, jsAdd_none_right])

/-- Witness for `claim_C3`: with all four calendar fields set to 1, each of
the four stage-execution hypotheses holds, and replacing any one group
field by `NaN` makes `add` return an invalid date. -/
theorem claim_C3_witness :
    (add (.dt ⟨0, some 0⟩)
      { ({ years := some 1, months := some 1, weeks := some 1, days := some 1 } : Duration)
        with months := none }).time = none ∧
    (add (.dt ⟨0, some 0⟩)
      { ({ years := some 1, months := some 1, weeks := some 1, days := some 1 } : Duration)
        with years := none }).time = none ∧
    (add (.dt ⟨0, some 0⟩)
      { ({ years := some 1, months := some 1, weeks := some 1, days := some 1 } : Duration)
        with days := none }).time = none ∧
    (add (.dt ⟨0, some 0⟩)
      { ({ years := some 1, months := some 1, weeks := some 1, days := some 1 } : Duration)
        with weeks := none }).time = none := by
  obtain ⟨-, -, -, -, -, -, -, -, -, -, -, -, -, -, -, -, -, -, -, -, -, -, -, -, -,
    h1, h2, h3, h4⟩ :=
    claim_C3 0 (some 0) none
      ({ years := some 1, months := some 1, weeks := some 1, days := some 1 } : Duration)
  exact ⟨h1 (by decide), h2 (by decide), h3 (by decide), h4 (by decide)⟩

theorem addMonths_time_kind (k k' : Nat) (τ : Option Int) (a : JSNum) :
    (addMonths (.dt ⟨k, τ⟩) a).time = (addMonths (.dt ⟨k', τ⟩) a).time := by
  dsimp only [addMonths, toDate, constructFrom, JsDate.setMonth, JsDate.getTimeJS,
    JsDate.getMonthJS, JsDate.getDateJS, JsDate.setFullYear, JsDate.getFullYearJS]
  split_ifs <;> rfl

theorem addDays_time_eq (d d' : JsDate) (h : d.time = d'.time) (a : JSNum) :
    (addDays (.dt d) a).time = (addDays (.dt d') a).time := by
  dsimp only [addDays, toDate, constructFrom, JsDate.setDate, JsDate.getDateJS]
  rw [h]
  split_ifs <;> rfl

theorem addMonths_zero_cast (d : JsDate) (x : Int) (h : x = 0) :
    addMonths (.dt d) (some ((x : Int) : ℚ)) = ⟨0, d.time⟩ := by
  subst h
  rw [show ((0 : Int) : ℚ) = 0 from by norm_num]
  rfl

theorem addDays_zero_cast (d : JsDate) (x : Int) (h : x = 0) :
    addDays (.dt d) (some ((x : Int) : ℚ)) = ⟨0, d.time⟩ := by
  subst h
  rw [show ((0 : Int) : ℚ) = 0 from by norm_num]
  rfl

theorem final_time_eq (dl : DateLike) (x x' : JsDate) (hx : x.time = x'.time) (ms : JSNum) :
    (constructFrom dl (jsAdd x.getTimeJS ms)).time
      = (newDate (jsAdd x'.getTimeJS ms)).time := by
  dsimp only [constructFrom, newDate, JsDate.getTimeJS]
  rw [hx]
  cases dl <;> rfl

/-- Claim C2: for integer duration fields, the composite `add` equals the
sequential composition
`addMilliseconds(addDays(addMonths(d, m + 12y), dd + 7w), 1000(s + 60(mi + 60h)))`
in time value, for every valid date. -/
theorem claim_C2 (k : Nat) (t : Int) (y m w dd h mi s : Int) :
    (add (.dt ⟨k, some t⟩)
        ⟨some (y : ℚ), some (m : ℚ), some (w : ℚ), some (dd : ℚ),
         some (h : ℚ), some (mi : ℚ), some (s : ℚ)⟩).time
      = (addMilliseconds
          (.dt (addDays
            (.dt (addMonths (.dt ⟨k, some t⟩) (some ((m + 12 * y : Int) : ℚ))))
            (some ((dd + 7 * w : Int) : ℚ))))
          (some ((1000 * (s + 60 * (mi + 60 * h)) : Int) : ℚ))).time := by
  dsimp only [add, toDate, addMilliseconds, toNumber, newDate]
  have hamt1 : jsAdd (some (m : ℚ)) (jsMul (some (y : ℚ)) (some 12))
      = some ((m + 12 * y : Int) : ℚ) := by
    dsimp only [jsAdd, jsMul]
    push_cast
    ring_nf
  have hamt2 : jsAdd (some (dd : ℚ)) (jsMul (some (w : ℚ)) (some 7))
      = some ((dd + 7 * w : Int) : ℚ) := by
    dsimp only [jsAdd, jsMul]
    push_cast
    ring_nf
  have hamt3 : jsMul (jsAdd (some (s : ℚ)) (jsMul (jsAdd (some (mi : ℚ))
      (jsMul (some (h : ℚ)) (some 60))) (some 60))) (some 1000)
      = some ((1000 * (s + 60 * (mi + 60 * h)) : Int) : ℚ) := by
    dsimp only [jsAdd, jsMul]
    push_cast
    ring_nf
  rw [hamt1, hamt2, hamt3]
  have hstage1 : (if (truthy (some (m : ℚ)) || truthy (some (y : ℚ))) = true then
        addMonths (.dt ⟨0, some t⟩) (some ((m + 12 * y : Int) : ℚ))
      else (⟨0, some t⟩ : JsDate)).time
      = (addMonths (.dt ⟨k, some t⟩) (some ((m + 12 * y : Int) : ℚ))).time := by
    split_ifs with hc
    · exact addMonths_time_kind 0 k (some t) _
    · simp only [truthy, Bool.or_eq_true, decide_eq_true_eq] at hc
      push_neg at hc
      have hm0 : m = 0 := by exact_mod_cast hc.1
      have hy0 : y = 0 := by exact_mod_cast hc.2
      rw [addMonths_zero_cast _ _ (by omega)]
  have hstage2 : (if (truthy (some (dd : ℚ)) || truthy (some (w : ℚ))) = true then
        addDays (.dt (if (truthy (some (m : ℚ)) || truthy (some (y : ℚ))) = true then
            addMonths (.dt ⟨0, some t⟩) (some ((m + 12 * y : Int) : ℚ))
          else (⟨0, some t⟩ : JsDate))) (some ((dd + 7 * w : Int) : ℚ))
      else (if (truthy (some (m : ℚ)) || truthy (some (y : ℚ))) = true then
            addMonths (.dt ⟨0, some t⟩) (some ((m + 12 * y : Int) : ℚ))
          else (⟨0, some t⟩ : JsDate))).time
      = (addDays (.dt (addMonths (.dt ⟨k, some t⟩) (some ((m + 12 * y : Int) : ℚ))))
          (some ((dd + 7 * w : Int) : ℚ))).time := by
    by_cases hc : (truthy (some (dd : ℚ)) || truthy (some (w : ℚ))) = true
    · rw [if_pos hc]
      exact addDays_time_eq _ _ hstage1 _
    · rw [if_neg hc]
      simp only [truthy, Bool.or_eq_true, decide_eq_true_eq] at hc
      push_neg at hc
      have hd0 : dd = 0 := by exact_mod_cast hc.1
      have hw0 : w = 0 := by exact_mod_cast hc.2
      rw [addDays_zero_cast _ _ (by omega)]
      exact hstage1
  exact final_time_eq _ _ _ hstage2 _

/-- Claim C6: on the store-passing rendering of `addMonths` (explicit heap
of date objects, in-place `setMonth`/`setFullYear` writes), the caller's
cell is never written: re-reading the argument index after the call yields
the original object unchanged. -/
theorem claim_C6 (store : List JsDate) (ref : Nat) (amount : JSNum)
    (h : ref < store.length) :
    ((addMonthsStore store ref amount).1)[ref]? = store[ref]? := by
  dsimp only [addMonthsStore]
  split_ifs with h1 h2
  · rw [List.getElem?_append_left (by simp; omega), List.getElem?_append_left h]
  · rw [List.getElem?_append_left h]
  · rw [List.getElem?_set_ne (by simp; omega),
      List.getElem?_append_left (by simp; omega), List.getElem?_append_left h]
  · rw [List.getElem?_set_ne (by omega), List.getElem?_set_ne (by simp; omega),
      List.getElem?_append_left (by simp; omega), List.getElem?_append_left h]

/-- Witness for `claim_C6`: a one-object store, `addMonths` at index 0 with
amount 1 leaves cell 0 unchanged. -/
theorem claim_C6_witness :
    0 < [(⟨0, some 0⟩ : JsDate)].length ∧
      ((addMonthsStore [⟨0, some 0⟩] 0 (some 1)).1)[0]? = [(⟨0, some 0⟩ : JsDate)][0]? :=
  ⟨by decide, claim_C6 [⟨0, some 0⟩] 0 (some 1) (by decide)⟩

theorem addMonthsStore_result (store : List JsDate) (ref : Nat) (amount : JSNum) :
    ((addMonthsStore store ref amount).1)[(addMonthsStore store ref amount).2]?
      = some (addMonths (.dt (store.getD ref ⟨0, none⟩)) amount) := by
  dsimp only [addMonthsStore, addMonths]
  split_ifs with h1 h2
  · rw [List.getElem?_append_right (by simp)]
    simp
  · rw [List.getElem?_append_right (by simp)]
    simp
  · rw [List.getElem?_set_self (by simp)]
  · rw [List.getElem?_set_self (by simp)]

/-- Counterexample to claim C3 as stated: `add` on a valid date with a
duration whose `months` field is `NaN` (and `years` absent) returns a valid
date, because `months || years` is falsy for `NaN` and the month stage is
skipped entirely. -/
theorem claim_C3_counterexample :
    (add (.dt ⟨0, some 0⟩) { months := none }).time = some 0 := by
  dsimp only [add, toDate]
  rw [show (truthy (none : JSNum) || truthy (some (0 : ℚ))) = false from by simp [truthy]]
  rw [show (truthy (some (0 : ℚ)) || truthy (some (0 : ℚ))) = false from by simp [truthy]]
  simp only [Bool.false_eq_true, if_false]
  show some (jsTrunc (((0 : Int) : ℚ) + (0 + (0 + 0 * 60) * 60) * 1000)) = some 0
  rw [show ((0 : Int) : ℚ) + (0 + (0 + 0 * 60) * 60) * 1000 = ((0 : Int) : ℚ) from by
    norm_num]
  rw [jsTrunc_intCast]

set_option maxHeartbeats 1000000 in
theorem lastDay_succ (Y M : Int) (h1 : 1 ≤ M) (h2 : M ≤ 12) :
    daysFromCivil (if M = 1 then Y - 1 else Y) (if M = 1 then 12 else M - 1)
        (daysInMonthOf (if M = 1 then Y - 1 else Y) (if M = 1 then 12 else M - 1)) + 1
      = daysFromCivil Y M 1 := by
  simp only [daysFromCivil, daysInMonthOf, isLeapYear, decide_eq_true_eq]
  interval_cases M <;> split_ifs <;> omega

theorem daysInMonthOf_bounds (y m : Int) :
    28 ≤ daysInMonthOf y m ∧ daysInMonthOf y m ≤ 31 := by
  simp only [daysInMonthOf, isLeapYear]
  split_ifs <;> omega

theorem makeDay_zero (y mo : Int) :
    makeDay y mo 0 = daysFromCivil (y + mo / 12) (mo % 12 + 1) 1 - 1 := by
  simp only [makeDay]
  ring

theorem jsTrunc_zero : jsTrunc 0 = 0 := by
  rw [show (0 : ℚ) = ((0 : Int) : ℚ) from by norm_num, jsTrunc_intCast]

theorem setMonth_int (kk : Nat) (t mo0 : Int) :
    JsDate.setMonth ⟨kk, some t⟩ (some ((mo0 : Int) : ℚ)) (some 0)
      = ⟨kk, some (makeDate (makeDay (yearOf t) mo0 0) (timeWithinDay t))⟩ := by
  dsimp only [JsDate.setMonth, makeDayJS, Option.map, Option.bind]
  rw [jsTrunc_intCast, jsTrunc_intCast, jsTrunc_zero]

theorem fields_of_makeDate (dnum r : Int) (h0 : 0 ≤ r) (h1 : r < msPerDay) :
    yearOf (makeDate dnum r) = (civilFromDays dnum).1 ∧
    monthOf (makeDate dnum r) = (civilFromDays dnum).2.1 - 1 ∧
    dateOf (makeDate dnum r) = (civilFromDays dnum).2.2 ∧
    timeWithinDay (makeDate dnum r) = r := by
  obtain ⟨hd, ht⟩ := makeDate_day dnum r h0 h1
  unfold yearOf monthOf dateOf
  rw [hd]
  exact ⟨rfl, rfl, rfl, ht⟩

/-- Claim C1: when the day-of-month of a valid date is at least the number of
days in the month `a` months later, `addMonths` returns the last day of that
target month instead of overflowing: the year and month advance by the
quotient and remainder of the month sum, the day-of-month clamps to the
target month's length, and the time of day is preserved. -/
theorem claim_C1 (k : Nat) (t a : Int)
    (h : daysInMonthOf (yearOf t + (monthOf t + a) / 12) ((monthOf t + a) % 12 + 1)
      ≤ dateOf t) :
    ∃ t', (addMonths (.dt ⟨k, some t⟩) (some ((a : Int) : ℚ))).time = some t' ∧
      yearOf t' = yearOf t + (monthOf t + a) / 12 ∧
      monthOf t' = (monthOf t + a) % 12 ∧
      dateOf t' = daysInMonthOf (yearOf t + (monthOf t + a) / 12) ((monthOf t + a) % 12 + 1) ∧
      timeWithinDay t' = timeWithinDay t := by
  obtain ⟨hround, hm1, hm2, hd1, hd2⟩ := civil_core (dayNumber t)
  have hmodef : monthOf t = (civilFromDays (dayNumber t)).2.1 - 1 := rfl
  have hyedef : yearOf t = (civilFromDays (dayNumber t)).1 := rfl
  have hddef : dateOf t = (civilFromDays (dayNumber t)).2.2 := rfl
  by_cases ha : a = 0
  · subst ha
    rw [hyedef, hmodef] at h ⊢
    rw [hddef] at h
    refine ⟨t, ?_, ?_, ?_, ?_, rfl⟩
    · rw [addMonths_zero_cast _ _ rfl]
    · rw [hyedef]
      omega
    · rw [hmodef]
      omega
    · rw [hddef]
      rw [show (civilFromDays (dayNumber t)).1
            + ((civilFromDays (dayNumber t)).2.1 - 1 + 0) / 12
          = (civilFromDays (dayNumber t)).1 from by omega,
        show ((civilFromDays (dayNumber t)).2.1 - 1 + 0) % 12 + 1
          = (civilFromDays (dayNumber t)).2.1 from by omega] at h ⊢
      omega
  · dsimp only [addMonths, toDate]
    rw [if_neg (show ¬(some ((a : Int) : ℚ) : JSNum) = none from by simp)]
    rw [if_neg (show ¬(some ((a : Int) : ℚ) : JSNum) = some 0 from by
      simp only [Option.some.injEq]
      exact_mod_cast ha)]
    have hcf : constructFrom (.dt ⟨k, some t⟩) (JsDate.getTimeJS ⟨0, some t⟩)
        = ⟨k, some t⟩ := by
      show (⟨k, some (jsTrunc ((t : Int) : ℚ))⟩ : JsDate) = ⟨k, some t⟩
      rw [jsTrunc_intCast]
    rw [hcf]
    have harg : jsAdd (jsAdd (JsDate.getMonthJS ⟨0, some t⟩) (some ((a : Int) : ℚ)))
        (some 1) = some ((monthOf t + a + 1 : Int) : ℚ) := by
      show (some ((monthOf t : ℚ) + (a : ℚ) + 1) : JSNum)
        = some ((monthOf t + a + 1 : Int) : ℚ)
      push_cast
      ring_nf
    rw [harg, setMonth_int, makeDay_zero]
    have hif1 : (if (monthOf t + a + 1) % 12 + 1 = 1
          then yearOf t + (monthOf t + a + 1) / 12 - 1
          else yearOf t + (monthOf t + a + 1) / 12)
        = yearOf t + (monthOf t + a) / 12 := by
      split_ifs <;> omega
    have hif2 : (if (monthOf t + a + 1) % 12 + 1 = 1 then 12
          else (monthOf t + a + 1) % 12 + 1 - 1)
        = (monthOf t + a) % 12 + 1 := by
      split_ifs <;> omega
    have hlds := lastDay_succ (yearOf t + (monthOf t + a + 1) / 12)
      ((monthOf t + a + 1) % 12 + 1) (by omega) (by omega)
    rw [hif1, hif2] at hlds
    rw [← hlds, add_sub_cancel_right]
    have htod := time_decomp t
    have hmd := makeDate_day (daysFromCivil (yearOf t + (monthOf t + a) / 12)
        ((monthOf t + a) % 12 + 1)
        (daysInMonthOf (yearOf t + (monthOf t + a) / 12) ((monthOf t + a) % 12 + 1)))
      (timeWithinDay t) htod.2.1 htod.2.2
    have hXfields := dc3 (yearOf t + (monthOf t + a) / 12) ((monthOf t + a) % 12 + 1)
      (daysInMonthOf (yearOf t + (monthOf t + a) / 12) ((monthOf t + a) % 12 + 1))
      (by omega) (by omega)
      (by have := daysInMonthOf_bounds (yearOf t + (monthOf t + a) / 12)
            ((monthOf t + a) % 12 + 1)
          omega)
      (le_refl _)
    have hf := fields_of_makeDate (daysFromCivil (yearOf t + (monthOf t + a) / 12)
        ((monthOf t + a) % 12 + 1)
        (daysInMonthOf (yearOf t + (monthOf t + a) / 12) ((monthOf t + a) % 12 + 1)))
      (timeWithinDay t) htod.2.1 htod.2.2
    rw [hXfields] at hf
    have hdate1 : (JsDate.getDateJS ⟨k, some (makeDate (daysFromCivil
        (yearOf t + (monthOf t + a) / 12) ((monthOf t + a) % 12 + 1)
        (daysInMonthOf (yearOf t + (monthOf t + a) / 12) ((monthOf t + a) % 12 + 1)))
        (timeWithinDay t))⟩)
        = some ((daysInMonthOf (yearOf t + (monthOf t + a) / 12)
            ((monthOf t + a) % 12 + 1) : Int) : ℚ) := by
      show (some ((dateOf (makeDate (daysFromCivil (yearOf t + (monthOf t + a) / 12)
          ((monthOf t + a) % 12 + 1)
          (daysInMonthOf (yearOf t + (monthOf t + a) / 12) ((monthOf t + a) % 12 + 1)))
          (timeWithinDay t)) : Int) : ℚ) : JSNum)
        = some ((daysInMonthOf (yearOf t + (monthOf t + a) / 12)
            ((monthOf t + a) % 12 + 1) : Int) : ℚ)
      rw [hf.2.2.1]
    rw [hdate1]
    rw [if_pos (show jsGe (JsDate.getDateJS ⟨0, some t⟩)
        (some ((daysInMonthOf (yearOf t + (monthOf t + a) / 12)
          ((monthOf t + a) % 12 + 1) : Int) : ℚ)) = true from by
      dsimp only [JsDate.getDateJS, jsGe, Option.map]
      simp only [decide_eq_true_eq]
      exact_mod_cast h)]
    refine ⟨_, rfl, ?_, ?_, ?_, hf.2.2.2⟩
    · rw [hf.1]
    · rw [hf.2.1]
      dsimp only
      omega
    · rw [hf.2.2.1]

/-- Witness for `claim_C1`: 2014-12-31 plus 2 months satisfies the clamp
hypothesis (February 2015 has 28 days) and returns 2015-02-28. -/
theorem claim_C1_witness :
    daysInMonthOf (yearOf 1419984000000 + (monthOf 1419984000000 + 2) / 12)
        ((monthOf 1419984000000 + 2) % 12 + 1) ≤ dateOf 1419984000000 ∧
    (∃ t', (addMonths (.dt ⟨0, some 1419984000000⟩) (some ((2 : Int) : ℚ))).time = some t' ∧
      yearOf t' = yearOf 1419984000000 + (monthOf 1419984000000 + 2) / 12 ∧
      monthOf t' = (monthOf 1419984000000 + 2) % 12 ∧
      dateOf t' = daysInMonthOf (yearOf 1419984000000 + (monthOf 1419984000000 + 2) / 12)
        ((monthOf 1419984000000 + 2) % 12 + 1) ∧
      timeWithinDay t' = timeWithinDay 1419984000000) :=
  ⟨by decide, claim_C1 0 1419984000000 2 (by decide)⟩

theorem dayNumber_add_days (t j : Int) : dayNumber (t + j * msPerDay) = dayNumber t + j := by
  unfold dayNumber msPerDay at *
  omega

theorem tod_add_days (t j : Int) : timeWithinDay (t + j * msPerDay) = timeWithinDay t := by
  unfold timeWithinDay msPerDay at *
  omega

theorem nbd_pos (z : Int) : nextBusinessDay z 1
    = z + (if (z + 4) % 7 = 5 then 3 else if (z + 4) % 7 = 6 then 2 else 1) := by
  simp only [nextBusinessDay, isWeekendDay, decide_eq_true_eq]
  split_ifs <;> omega

theorem nbd_neg (z : Int) : nextBusinessDay z (-1)
    = z - (if (z + 4) % 7 = 1 then 3 else if (z + 4) % 7 = 0 then 2 else 1) := by
  simp only [nextBusinessDay, isWeekendDay, decide_eq_true_eq]
  split_ifs <;> omega

theorem nbd_shift (z s j : Int) :
    nextBusinessDay (z + 7 * j) s = nextBusinessDay z s + 7 * j := by
  simp only [nextBusinessDay, isWeekendDay, decide_eq_true_eq]
  split_ifs <;> omega

theorem nbd_business (z s : Int) (hs : s = 1 ∨ s = -1) :
    ¬((nextBusinessDay z s + 4) % 7 = 6 ∨ (nextBusinessDay z s + 4) % 7 = 0) := by
  rcases hs with h | h <;> subst h <;>
    simp only [nextBusinessDay, isWeekendDay, decide_eq_true_eq] <;>
    split_ifs <;> omega

theorem businessWalk_succ (s z : Int) (n : Nat) :
    businessWalk s z (n + 1) = businessWalk s (nextBusinessDay z s) n := rfl

theorem walk_append (s z : Int) (a b : Nat) :
    businessWalk s z (a + b) = businessWalk s (businessWalk s z a) b := by
  induction a generalizing z with
  | zero =>
    rw [Nat.zero_add]
    rfl
  | succ a ih =>
    have h1 : a + 1 + b = (a + b) + 1 := by omega
    rw [h1, businessWalk_succ, businessWalk_succ]
    exact ih (nextBusinessDay z s)

theorem walk_shift (s z j : Int) (n : Nat) :
    businessWalk s (z + 7 * j) n = businessWalk s z n + 7 * j := by
  induction n generalizing z with
  | zero => rfl
  | succ n ih =>
    rw [businessWalk_succ, businessWalk_succ, nbd_shift]
    exact ih (nextBusinessDay z s)

theorem walk_business (s z : Int) (hs : s = 1 ∨ s = -1) (n : Nat) (h : 1 ≤ n) :
    ¬((businessWalk s z n + 4) % 7 = 6 ∨ (businessWalk s z n + 4) % 7 = 0) := by
  induction n generalizing z with
  | zero => omega
  | succ n ih =>
    rw [businessWalk_succ]
    rcases Nat.eq_zero_or_pos n with h0 | h0
    · subst h0
      exact nbd_business z s hs
    · exact ih (nextBusinessDay z s) h0

theorem walk_formula_pos (n : Nat) :
    ∀ z : Int, ¬((z + 4) % 7 = 6 ∨ (z + 4) % 7 = 0) →
      businessWalk 1 z n
        = z + 7 * (((z + 4) % 7 - 1 + n) / 5)
          + (((z + 4) % 7 - 1 + n) % 5 - ((z + 4) % 7 - 1)) := by
  induction n with
  | zero =>
    intro z hb
    show z = _
    push_cast
    omega
  | succ n ih =>
    intro z hb
    rw [businessWalk_succ]
    have h1 := nbd_pos z
    have hb' := nbd_business z 1 (Or.inl rfl)
    have h2 := ih (nextBusinessDay z 1) hb'
    rw [h2, h1]
    rw [h1] at hb'
    push_cast
    split_ifs at * <;> omega

theorem walk_formula_neg (n : Nat) :
    ∀ z : Int, ¬((z + 4) % 7 = 6 ∨ (z + 4) % 7 = 0) →
      businessWalk (-1) z n
        = z - 7 * ((5 - (z + 4) % 7 + n) / 5)
          - ((5 - (z + 4) % 7 + n) % 5 - (5 - (z + 4) % 7)) := by
  induction n with
  | zero =>
    intro z hb
    show z = _
    push_cast
    omega
  | succ n ih =>
    intro z hb
    rw [businessWalk_succ]
    have h1 := nbd_neg z
    have hb' := nbd_business z (-1) (Or.inr rfl)
    have h2 := ih (nextBusinessDay z (-1)) hb'
    rw [h2, h1]
    rw [h1] at hb'
    push_cast
    split_ifs at * <;> omega

theorem walk5 (s z : Int) (hs : s = 1 ∨ s = -1)
    (hb : ¬((z + 4) % 7 = 6 ∨ (z + 4) % 7 = 0)) :
    businessWalk s z 5 = z + 7 * s := by
  rcases hs with h | h <;> subst h
  · have := walk_formula_pos 5 z hb
    push_cast at this
    omega
  · have := walk_formula_neg 5 z hb
    push_cast at this
    omega

theorem makeDate_decomp (t : Int) : makeDate (dayNumber t) (timeWithinDay t) = t := by
  unfold makeDate dayNumber timeWithinDay msPerDay
  omega

theorem isWeekend_day (kk : Nat) (t : Int) :
    isWeekend ⟨kk, some t⟩ = isWeekendDay (dayNumber t) := rfl

theorem loop_walk (s : Int) (hs : s = 1 ∨ s = -1) :
    ∀ r : Nat, r ≤ 4 → ∀ fuel : Nat, 3 * r ≤ fuel → ∀ (kk : Nat) (t : Int),
      businessLoop fuel ⟨kk, some t⟩ s ((r : Nat) : ℚ)
        = ⟨kk, some (makeDate (businessWalk s (dayNumber t) r) (timeWithinDay t))⟩ := by
  intro r
  induction r with
  | zero =>
    intro _ fuel _ kk t
    cases fuel with
    | zero =>
      show (⟨kk, some t⟩ : JsDate) = _
      rw [show businessWalk s (dayNumber t) 0 = dayNumber t from rfl, makeDate_decomp]
    | succ m =>
      show businessLoop (m + 1) ⟨kk, some t⟩ s ((0 : ℕ) : ℚ) = _
      dsimp only [businessLoop]
      rw [if_neg (by norm_num)]
      rw [show businessWalk s (dayNumber t) 0 = dayNumber t from rfl, makeDate_decomp]
  | succ r ih =>
    intro hr fuel hf kk t
    obtain ⟨m, rfl⟩ : ∃ m, fuel = m + 1 := ⟨fuel - 1, by omega⟩
    dsimp only [businessLoop]
    rw [if_pos (show (0 : ℚ) < ((r + 1 : ℕ) : ℚ) from by exact_mod_cast Nat.succ_pos r)]
    rw [setDate_int, isWeekend_day, dayNumber_add_days]
    by_cases hw1 : isWeekendDay (dayNumber t + s) = true
    · rw [if_neg (not_not.mpr hw1)]
      obtain ⟨m2, rfl⟩ : ∃ m2, m = m2 + 1 := ⟨m - 1, by omega⟩
      dsimp only [businessLoop]
      rw [if_pos (show (0 : ℚ) < ((r + 1 : ℕ) : ℚ) from by exact_mod_cast Nat.succ_pos r)]
      rw [setDate_int, isWeekend_day, dayNumber_add_days, dayNumber_add_days]
      by_cases hw2 : isWeekendDay (dayNumber t + s + s) = true
      · rw [if_neg (not_not.mpr hw2)]
        obtain ⟨m3, rfl⟩ : ∃ m3, m2 = m3 + 1 := ⟨m2 - 1, by omega⟩
        dsimp only [businessLoop]
        rw [if_pos (show (0 : ℚ) < ((r + 1 : ℕ) : ℚ) from by exact_mod_cast Nat.succ_pos r)]
        rw [setDate_int, isWeekend_day, dayNumber_add_days, dayNumber_add_days,
          dayNumber_add_days]
        have hw3 : ¬ isWeekendDay (dayNumber t + s + s + s) = true := by
          simp only [isWeekendDay, decide_eq_true_eq] at hw1 hw2 ⊢
          rcases hs with h | h <;> subst h <;> omega
        rw [if_pos hw3]
        rw [show ((r + 1 : ℕ) : ℚ) - 1 = ((r : ℕ) : ℚ) from by push_cast; ring]
        rw [ih (by omega) m3 (by omega) kk _]
        have hnbd : nextBusinessDay (dayNumber t) s = dayNumber t + s + s + s := by
          simp only [nextBusinessDay]
          rw [if_neg (by
            simp only [isWeekendDay, decide_eq_true_eq] at hw1 ⊢
            omega), if_neg (by
            simp only [isWeekendDay, decide_eq_true_eq] at hw2 ⊢
            rcases hs with h | h <;> subst h <;> omega)]
          rcases hs with h | h <;> subst h <;> ring
        rw [businessWalk_succ, hnbd, dayNumber_add_days, dayNumber_add_days,
          dayNumber_add_days, tod_add_days, tod_add_days, tod_add_days]
      · rw [if_pos hw2]
        rw [show ((r + 1 : ℕ) : ℚ) - 1 = ((r : ℕ) : ℚ) from by push_cast; ring]
        rw [ih (by omega) m2 (by omega) kk _]
        have hnbd : nextBusinessDay (dayNumber t) s = dayNumber t + s + s := by
          simp only [nextBusinessDay]
          rw [if_neg (by
            simp only [isWeekendDay, decide_eq_true_eq] at hw1 ⊢
            omega), if_pos (by
            simp only [isWeekendDay, decide_eq_true_eq] at hw2 ⊢
            rcases hs with h | h <;> subst h <;> omega)]
          rcases hs with h | h <;> subst h <;> ring
        rw [businessWalk_succ, hnbd, dayNumber_add_days, dayNumber_add_days,
          tod_add_days, tod_add_days]
    · rw [if_pos hw1]
      rw [show ((r + 1 : ℕ) : ℚ) - 1 = ((r : ℕ) : ℚ) from by push_cast; ring]
      rw [ih (by omega) m (by omega) kk _]
      have hnbd : nextBusinessDay (dayNumber t) s = dayNumber t + s := by
        simp only [nextBusinessDay]
        rw [if_pos (by
          simp only [isWeekendDay, decide_eq_true_eq] at hw1 ⊢
          simpa using hw1)]
      rw [businessWalk_succ, hnbd, dayNumber_add_days, tod_add_days]

theorem tod_bounds (t : Int) : 0 ≤ timeWithinDay t ∧ timeWithinDay t < msPerDay := by
  unfold timeWithinDay msPerDay
  omega

theorem hourOf_makeDate (w t : Int) : hourOf (makeDate w (timeWithinDay t)) = hourOf t := by
  unfold hourOf makeDate timeWithinDay millisecondsInHour msPerDay
  omega

theorem makeDate_shift (w r c : Int) : makeDate w r + c * msPerDay = makeDate (w + c) r := by
  unfold makeDate
  ring

theorem isWeekend_makeDate (kk : Nat) (w t : Int) :
    isWeekend ⟨kk, some (makeDate w (timeWithinDay t))⟩ = isWeekendDay w := by
  show decide _ = decide _
  unfold weekDayOf
  rw [(makeDate_day w (timeWithinDay t) (tod_bounds t).1 (tod_bounds t).2).1]

theorem isSaturday_makeDate (kk : Nat) (w t : Int) :
    isSaturday ⟨kk, some (makeDate w (timeWithinDay t))⟩ = decide ((w + 4) % 7 = 6) := by
  show decide _ = decide _
  unfold weekDayOf
  rw [(makeDate_day w (timeWithinDay t) (tod_bounds t).1 (tod_bounds t).2).1]

theorem isSunday_makeDate (kk : Nat) (w t : Int) :
    isSunday ⟨kk, some (makeDate w (timeWithinDay t))⟩ = decide ((w + 4) % 7 = 0) := by
  show decide _ = decide _
  unfold weekDayOf
  rw [(makeDate_day w (timeWithinDay t) (tod_bounds t).1 (tod_bounds t).2).1]

theorem walk_5mul_pos (Q : ℕ) : ∀ z : Int, ¬((z + 4) % 7 = 6 ∨ (z + 4) % 7 = 0) →
    businessWalk 1 z (5 * Q) = z + (Q : Int) * 7 := by
  induction Q with
  | zero =>
    intro z _
    show z = _
    push_cast
    ring
  | succ Q ih =>
    intro z hb
    rw [show 5 * (Q + 1) = 5 * Q + 5 from by ring, walk_append, ih z hb,
      walk5 1 (z + (Q : Int) * 7) (Or.inl rfl) (by omega)]
    push_cast
    ring

theorem walk_5mul_neg (Q : ℕ) : ∀ z : Int, ¬((z + 4) % 7 = 6 ∨ (z + 4) % 7 = 0) →
    businessWalk (-1) z (5 * Q) = z + -(Q : Int) * 7 := by
  induction Q with
  | zero =>
    intro z _
    show z = _
    push_cast
    ring
  | succ Q ih =>
    intro z hb
    rw [show 5 * (Q + 1) = 5 * Q + 5 from by ring, walk_append, ih z hb,
      walk5 (-1) (z + -(Q : Int) * 7) (Or.inr rfl) (by omega)]
    push_cast
    ring

theorem walk_weeks_pos (Q r : ℕ) (z : Int) (hb : ¬((z + 4) % 7 = 6 ∨ (z + 4) % 7 = 0)) :
    businessWalk 1 z (5 * Q + r) = businessWalk 1 (z + (Q : Int) * 7) r := by
  rw [walk_append, walk_5mul_pos Q z hb]

theorem walk_weeks_neg (Q r : ℕ) (z : Int) (hb : ¬((z + 4) % 7 = 6 ∨ (z + 4) % 7 = 0)) :
    businessWalk (-1) z (5 * Q + r) = businessWalk (-1) (z + -(Q : Int) * 7) r := by
  rw [walk_append, walk_5mul_neg Q z hb]

theorem jsTrunc_div5 (n : Int) (h : 0 ≤ n) : jsTrunc ((n : ℚ) / 5) = n / 5 := by
  rw [jsTrunc_floor _ (by positivity)]
  rw [show ((5 : ℚ)) = (((5 : ℕ) : ℚ)) from by norm_num, Rat.floor_intCast_div_natCast]
  norm_num

theorem walk_weekend_pos (Q r : ℕ) (z : Int) (hz : (z + 4) % 7 = 6 ∨ (z + 4) % 7 = 0) :
    businessWalk 1 z (5 * Q + (r + 1)) = businessWalk 1 (z + (Q : Int) * 7) (r + 1) := by
  rw [show 5 * Q + (r + 1) = (5 * Q + r) + 1 from by ring]
  rw [businessWalk_succ, businessWalk_succ]
  rw [show z + (Q : Int) * 7 = z + 7 * (Q : Int) from by ring, nbd_shift]
  rw [walk_weeks_pos Q r (nextBusinessDay z 1) (nbd_business z 1 (Or.inl rfl))]
  rw [show nextBusinessDay z 1 + (Q : Int) * 7 = nextBusinessDay z 1 + 7 * (Q : Int) from by
    ring]

theorem walk_weekend_neg (Q r : ℕ) (z : Int) (hz : (z + 4) % 7 = 6 ∨ (z + 4) % 7 = 0) :
    businessWalk (-1) z (5 * Q + (r + 1)) = businessWalk (-1) (z + -(Q : Int) * 7) (r + 1) := by
  rw [show 5 * Q + (r + 1) = (5 * Q + r) + 1 from by ring]
  rw [businessWalk_succ, businessWalk_succ]
  rw [show z + -(Q : Int) * 7 = z + 7 * (-(Q : Int)) from by ring, nbd_shift]
  rw [walk_weeks_neg Q r (nextBusinessDay z (-1)) (nbd_business z (-1) (Or.inr rfl))]
  rw [show nextBusinessDay z (-1) + -(Q : Int) * 7
      = nextBusinessDay z (-1) + 7 * (-(Q : Int)) from by ring]

theorem walk_corr_sat_pos (Q : ℕ) (hQ : 1 ≤ Q) (z : Int) (hz : (z + 4) % 7 = 6) :
    businessWalk 1 z (5 * Q) = z + (Q : Int) * 7 + (-1) := by
  rw [show 5 * Q = (5 * Q - 1) + 1 from by omega, businessWalk_succ]
  rw [show nextBusinessDay z 1 = z + 2 from by
    rw [nbd_pos, if_neg (by omega), if_pos (by omega)]]
  rw [walk_formula_pos (5 * Q - 1) (z + 2) (by omega)]
  omega

theorem walk_corr_sun_pos (Q : ℕ) (hQ : 1 ≤ Q) (z : Int) (hz : (z + 4) % 7 = 0) :
    businessWalk 1 z (5 * Q) = z + (Q : Int) * 7 + (-2) := by
  rw [show 5 * Q = (5 * Q - 1) + 1 from by omega, businessWalk_succ]
  rw [show nextBusinessDay z 1 = z + 1 from by
    rw [nbd_pos, if_neg (by omega), if_neg (by omega)]]
  rw [walk_formula_pos (5 * Q - 1) (z + 1) (by omega)]
  omega

theorem walk_corr_sat_neg (Q : ℕ) (hQ : 1 ≤ Q) (z : Int) (hz : (z + 4) % 7 = 6) :
    businessWalk (-1) z (5 * Q) = z + -(Q : Int) * 7 + 2 := by
  rw [show 5 * Q = (5 * Q - 1) + 1 from by omega, businessWalk_succ]
  rw [show nextBusinessDay z (-1) = z - 1 from by
    rw [nbd_neg, if_neg (by omega), if_neg (by omega)]]
  rw [walk_formula_neg (5 * Q - 1) (z - 1) (by omega)]
  omega

theorem walk_corr_sun_neg (Q : ℕ) (hQ : 1 ≤ Q) (z : Int) (hz : (z + 4) % 7 = 0) :
    businessWalk (-1) z (5 * Q) = z + -(Q : Int) * 7 + 1 := by
  rw [show 5 * Q = (5 * Q - 1) + 1 from by omega, businessWalk_succ]
  rw [show nextBusinessDay z (-1) = z - 2 from by
    rw [nbd_neg, if_neg (by omega), if_pos (by omega)]]
  rw [walk_formula_neg (5 * Q - 1) (z - 2) (by omega)]
  omega

theorem setHours_makeDate (kk : Nat) (w t : Int) :
    JsDate.setHours ⟨kk, some (makeDate w (timeWithinDay t))⟩ (some ((hourOf t : ℚ)))
      = ⟨kk, some (makeDate w (timeWithinDay t))⟩ := by
  rw [show hourOf t = hourOf (makeDate w (timeWithinDay t)) from (hourOf_makeDate w t).symm,
    setHours_self]

theorem addBusinessDays_walk (k : Nat) (t n : Int) :
    addBusinessDays (.dt ⟨k, some t⟩) (some ((n : Int) : ℚ))
      = ⟨0, some (makeDate (businessWalk (if n < 0 then -1 else 1) (dayNumber t) n.natAbs)
          (timeWithinDay t))⟩ := by
  dsimp only [addBusinessDays, toDate, JsDate.getHoursJS, Option.map]
  rcases lt_or_le n 0 with hneg | hpos
  · obtain ⟨Q, r, hr5, hge1, rfl⟩ : ∃ Q r : ℕ, r < 5 ∧ 1 ≤ 5 * Q + r ∧
        n = -((5 * Q + r : ℕ) : ℤ) :=
      ⟨n.natAbs / 5, n.natAbs % 5, by omega, by omega, by omega⟩
    have hF : jsTrunc (((-((5 * Q + r : ℕ) : ℤ) : ℤ) : ℚ) / 5) = -(Q : ℤ) := by
      rw [show (((-((5 * Q + r : ℕ) : ℤ) : ℤ) : ℚ)) / 5
          = -((((5 * Q + r : ℕ) : ℤ) : ℚ) / 5) from by push_cast; ring]
      rw [jsTrunc_neg, jsTrunc_div5 _ (by exact_mod_cast Nat.zero_le (5 * Q + r))]
      omega
    rw [hF]
    have hrest : |((-((5 * Q + r : ℕ) : ℤ) : ℤ) : ℚ) - 5 * ((-(Q : ℤ) : ℤ) : ℚ)|
        = ((r : ℕ) : ℚ) := by
      rw [show ((-((5 * Q + r : ℕ) : ℤ) : ℤ) : ℚ) - 5 * ((-(Q : ℤ) : ℤ) : ℚ)
          = (((-((5 * Q + r : ℕ) : ℤ) - 5 * (-(Q : ℤ))) : ℤ) : ℚ) from by push_cast; ring]
      rw [← Int.cast_abs]
      rw [show |(-((5 * Q + r : ℕ) : ℤ) - 5 * (-(Q : ℤ)))| = ((r : ℕ) : ℤ) from by
        rw [Int.abs_eq_natAbs]; omega]
      exact_mod_cast rfl
    rw [hrest]
    rw [if_pos (show ((-((5 * Q + r : ℕ) : ℤ) : ℤ) : ℚ) < 0 from by
      exact_mod_cast (show -((5 * Q + r : ℕ) : ℤ) < 0 from by omega))]
    rw [if_pos (show -((5 * Q + r : ℕ) : ℤ) < 0 from by omega)]
    rw [setDate_int]
    rw [loop_walk (-1) (Or.inr rfl) r (by omega) 16 (by omega) 0
      (t + -(Q : ℤ) * 7 * msPerDay)]
    rw [dayNumber_add_days, tod_add_days]
    rw [show (-((5 * Q + r : ℕ) : ℤ)).natAbs = 5 * Q + r from by omega]
    by_cases hz : (dayNumber t + 4) % 7 = 6 ∨ (dayNumber t + 4) % 7 = 0
    · have hb1t : isWeekend ⟨0, some t⟩ = true := by
        rw [isWeekend_day]; exact decide_eq_true hz
      rcases r with _ | r'
      · rw [show businessWalk (-1) (dayNumber t + -(Q : ℤ) * 7) 0
              = dayNumber t + -(Q : ℤ) * 7 from rfl]
        have hQ1 : 0 < Q := by omega
        rw [if_pos (show _ = true from by
          rw [hb1t, show isWeekend ⟨0, some (makeDate (dayNumber t + -(Q : ℤ) * 7)
              (timeWithinDay t))⟩ = true from by
            rw [isWeekend_makeDate]; exact decide_eq_true (by omega),
            show (decide (¬((-((5 * Q + 0 : ℕ) : ℤ) : ℤ) : ℚ) = 0)) = true from
              decide_eq_true (by
                intro hq
                have : -((5 * Q + 0 : ℕ) : ℤ) = 0 := by exact_mod_cast hq
                omega)]
          rfl)]
        rcases hz with hsat | hsun
        · rw [isSaturday_makeDate,
            if_pos (decide_eq_true (show (dayNumber t + -(Q : ℤ) * 7 + 4) % 7 = 6 from by
              omega))]
          rw [if_pos (show ((-1 : ℤ)) < 0 from by norm_num),
            if_pos (show ((-1 : ℤ)) < 0 from by norm_num)]
          rw [show ((2 : ℚ)) = (((2 : ℤ)) : ℚ) from by norm_num]
          rw [setDate_int, makeDate_shift]
          rw [isSunday_makeDate,
            if_neg (show ¬(decide ((dayNumber t + -(Q : ℤ) * 7 + 2 + 4) % 7 = 0) = true)
              from by simp only [decide_eq_true_eq]; omega)]
          rw [Nat.add_zero, walk_corr_sat_neg Q hQ1 (dayNumber t) hsat]
          rw [setHours_makeDate]
        · rw [isSaturday_makeDate,
            if_neg (show ¬(decide ((dayNumber t + -(Q : ℤ) * 7 + 4) % 7 = 6) = true)
              from by simp only [decide_eq_true_eq]; omega)]
          rw [isSunday_makeDate,
            if_pos (decide_eq_true (show (dayNumber t + -(Q : ℤ) * 7 + 4) % 7 = 0 from by
              omega))]
          rw [if_pos (show ((-1 : ℤ)) < 0 from by norm_num)]
          rw [show ((1 : ℚ)) = (((1 : ℤ)) : ℚ) from by norm_num]
          rw [setDate_int, makeDate_shift]
          rw [Nat.add_zero, walk_corr_sun_neg Q hQ1 (dayNumber t) hsun]
          rw [setHours_makeDate]
      · have hb2f : isWeekend ⟨0, some (makeDate
            (businessWalk (-1) (dayNumber t + -(Q : ℤ) * 7) (r' + 1)) (timeWithinDay t))⟩
              = false := by
          rw [isWeekend_makeDate]
          exact decide_eq_false (walk_business (-1) (dayNumber t + -(Q : ℤ) * 7)
            (Or.inr rfl) (r' + 1) (by omega))
        rw [if_neg (by rw [hb2f]; simp)]
        rw [walk_weekend_neg Q r' (dayNumber t) hz]
        rw [setHours_makeDate]
    · have hb1f : isWeekend ⟨0, some t⟩ = false := by
        rw [isWeekend_day]; exact decide_eq_false hz
      rw [if_neg (by rw [hb1f]; simp)]
      rw [walk_weeks_neg Q r (dayNumber t) hz]
      rw [setHours_makeDate]
  · obtain ⟨Q, r, hr5, rfl⟩ : ∃ Q r : ℕ, r < 5 ∧ n = ((5 * Q + r : ℕ) : ℤ) :=
      ⟨n.toNat / 5, n.toNat % 5, by omega, by omega⟩
    have hF : jsTrunc ((((5 * Q + r : ℕ) : ℤ) : ℚ) / 5) = (Q : ℤ) := by
      rw [jsTrunc_div5 _ (by exact_mod_cast Nat.zero_le (5 * Q + r))]
      omega
    rw [hF]
    have hrest : |(((5 * Q + r : ℕ) : ℤ) : ℚ) - 5 * (((Q : ℤ)) : ℚ)| = ((r : ℕ) : ℚ) := by
      rw [show ((((5 * Q + r : ℕ) : ℤ)) : ℚ) - 5 * (((Q : ℤ)) : ℚ)
          = ((((5 * Q + r : ℕ) : ℤ) - 5 * (Q : ℤ) : ℤ) : ℚ) from by push_cast; ring]
      rw [← Int.cast_abs]
      rw [show |(((5 * Q + r : ℕ) : ℤ)) - 5 * (Q : ℤ)| = ((r : ℕ) : ℤ) from by
        rw [Int.abs_eq_natAbs]; omega]
      exact_mod_cast rfl
    rw [hrest]
    rw [if_neg (show ¬((((5 * Q + r : ℕ) : ℤ) : ℚ) < 0) from by
      rw [not_lt]; exact_mod_cast Int.natCast_nonneg (5 * Q + r))]
    rw [if_neg (show ¬(((5 * Q + r : ℕ) : ℤ) < 0) from by omega)]
    rw [setDate_int]
    rw [loop_walk 1 (Or.inl rfl) r (by omega) 16 (by omega) 0 (t + (Q : ℤ) * 7 * msPerDay)]
    rw [dayNumber_add_days, tod_add_days]
    rw [show (((5 * Q + r : ℕ) : ℤ)).natAbs = 5 * Q + r from rfl]
    by_cases hz : (dayNumber t + 4) % 7 = 6 ∨ (dayNumber t + 4) % 7 = 0
    · have hb1t : isWeekend ⟨0, some t⟩ = true := by
        rw [isWeekend_day]; exact decide_eq_true hz
      rcases r with _ | r'
      · rw [show businessWalk 1 (dayNumber t + (Q : ℤ) * 7) 0
              = dayNumber t + (Q : ℤ) * 7 from rfl]
        rcases Nat.eq_zero_or_pos Q with rfl | hQ1
        · rw [if_neg (by
            rw [show (decide (¬(((5 * 0 + 0 : ℕ) : ℤ) : ℚ) = 0)) = false from
              decide_eq_false (by norm_num)]
            simp)]
          rw [show dayNumber t + ((0 : ℕ) : ℤ) * 7 = dayNumber t from by norm_num]
          rw [show businessWalk 1 (dayNumber t) (5 * 0 + 0) = dayNumber t from rfl]
          rw [setHours_makeDate]
        · rw [if_pos (show _ = true from by
            rw [hb1t, show isWeekend ⟨0, some (makeDate (dayNumber t + (Q : ℤ) * 7)
                (timeWithinDay t))⟩ = true from by
              rw [isWeekend_makeDate]; exact decide_eq_true (by omega),
              show (decide (¬(((5 * Q + 0 : ℕ) : ℤ) : ℚ) = 0)) = true from
                decide_eq_true (by
                  intro hq
                  have : ((5 * Q + 0 : ℕ) : ℤ) = 0 := by exact_mod_cast hq
                  omega)]
            rfl)]
          rcases hz with hsat | hsun
          · rw [isSaturday_makeDate,
              if_pos (decide_eq_true (show (dayNumber t + (Q : ℤ) * 7 + 4) % 7 = 6 from by
                omega))]
            rw [if_neg (show ¬((1 : ℤ) < 0) from by norm_num),
              if_neg (show ¬((1 : ℤ) < 0) from by norm_num)]
            rw [show ((-1 : ℚ)) = (((-1 : ℤ)) : ℚ) from by norm_num]
            rw [setDate_int, makeDate_shift]
            rw [isSunday_makeDate,
              if_neg (show ¬(decide ((dayNumber t + (Q : ℤ) * 7 + -1 + 4) % 7 = 0) = true)
                from by simp only [decide_eq_true_eq]; omega)]
            rw [Nat.add_zero, walk_corr_sat_pos Q hQ1 (dayNumber t) hsat]
            rw [setHours_makeDate]
          · rw [isSaturday_makeDate,
              if_neg (show ¬(decide ((dayNumber t + (Q : ℤ) * 7 + 4) % 7 = 6) = true)
                from by simp only [decide_eq_true_eq]; omega)]
            rw [isSunday_makeDate,
              if_pos (decide_eq_true (show (dayNumber t + (Q : ℤ) * 7 + 4) % 7 = 0 from by
                omega))]
            rw [if_neg (show ¬((1 : ℤ) < 0) from by norm_num)]
            rw [show ((-2 : ℚ)) = (((-2 : ℤ)) : ℚ) from by norm_num]
            rw [setDate_int, makeDate_shift]
            rw [Nat.add_zero, walk_corr_sun_pos Q hQ1 (dayNumber t) hsun]
            rw [setHours_makeDate]
      · have hb2f : isWeekend ⟨0, some (makeDate
            (businessWalk 1 (dayNumber t + (Q : ℤ) * 7) (r' + 1)) (timeWithinDay t))⟩
              = false := by
          rw [isWeekend_makeDate]
          exact decide_eq_false (walk_business 1 (dayNumber t + (Q : ℤ) * 7)
            (Or.inl rfl) (r' + 1) (by omega))
        rw [if_neg (by rw [hb2f]; simp)]
        rw [walk_weekend_pos Q r' (dayNumber t) hz]
        rw [setHours_makeDate]
    · have hb1f : isWeekend ⟨0, some t⟩ = false := by
        rw [isWeekend_day]; exact decide_eq_false hz
      rw [if_neg (by rw [hb1f]; simp)]
      rw [walk_weeks_pos Q r (dayNumber t) hz]
      rw [setHours_makeDate]

/-- Claim C4: for every valid date and integer amount `n`, `addBusinessDays`
advances the date by exactly `|n|` non-weekend days in the sign direction
of `n` — its result is the reference business-day walk `businessWalk`
applied to the date's day number (full weeks via `trunc(n / 5)` plus the
rest-day loop and the weekend-start correction all collapse to that
walk), with the time of day preserved; in particular
`addBusinessDays(new Date(2014, 8, 1), 10)` is `new Date(2014, 8, 15)`
(time values `1409529600000` and `1410739200000`). -/
theorem claim_C4 :
    (∀ (k : Nat) (t n : Int),
      addBusinessDays (.dt ⟨k, some t⟩) (some ((n : Int) : ℚ))
        = ⟨0, some (makeDate
            (businessWalk (if n < 0 then -1 else 1) (dayNumber t) n.natAbs)
            (timeWithinDay t))⟩)
    ∧ (addBusinessDays (.dt ⟨0, some 1409529600000⟩) (some ((10 : Int) : ℚ))).time
        = some 1410739200000 := by
  refine ⟨addBusinessDays_walk, ?_⟩
  rw [addBusinessDays_walk 0 1409529600000 10]
  decide

end DateFns
